import Mathlib

/-!
Verification development for the `prerecordloop` GStreamer element
(`src/gstprerecordloop/src/gstprerecordloop.c`).

The element is shallowly embedded: its shared, lock-protected state becomes
an explicit record `PrerecState`, the pad handlers become pure functions
from state (plus the incoming buffer/event) to state paired with the list
of payloads pushed to the source pad.  Machine integers (`guint`,
`guint64`, `GstClockTime`) become `Nat`, signed stream times
(`GstClockTimeDiff`, with `GST_CLOCK_STIME_NONE` as the invalid value)
become `Option Int`, and `GstClockTime` values that may be
`GST_CLOCK_TIME_NONE` become `Option Nat`.
-/

namespace Prerec

/-- Segment formats: the element only distinguishes `GST_FORMAT_TIME` from
everything else (`locked_apply_segment` normalizes non-time formats). -/
inductive Format where
  | time
  | other
deriving DecidableEq, Repr

/-- Embedding of the `GstSegment` fields the element reads or writes:
`format`, `start`, `stop` (`-1` becomes `none`), `time` and `position`. -/
structure Segment where
  format : Format
  start : Nat
  stop : Option Nat
  time : Nat
  position : Option Nat
deriving DecidableEq, Repr

/-- `gst_segment_init (seg, GST_FORMAT_TIME)`: start 0, stop unset,
time 0, position 0. -/
def initSegment : Segment :=
  { format := Format.time, start := 0, stop := none, time := 0, position := some 0 }

/-- Modelled from the spec: the collaborator call
`gst_segment_to_running_time_full` (GStreamer library, outside this
repository) as used by `segment_to_running_time`.  Per the spec glossary a
running time is "a position mapped through a time-segment's start/offset";
for the flat segments this element builds that is `position - start`, with
an invalid input position giving the invalid stream time. -/
def segment_to_running_time (seg : Segment) (val : Option Nat) : Option Int :=
  match val with
  | none => none
  | some v => some ((v : Int) - (seg.start : Int))

/-- Queue payloads: a frame (buffer) with its `DTS_OR_PTS`, duration, byte
size and keyframe flag, or one of the two queued control events. -/
inductive Payload where
  | frame (pts : Option Nat) (dur : Option Nat) (size : Nat) (keyframe : Bool)
  | segmentEvent (seg : Segment)
  | gapEvent (ts : Nat) (dur : Option Nat)
deriving DecidableEq, Repr

/-- True for buffers (`GST_IS_BUFFER`). -/
def Payload.isFrame : Payload → Bool
  | Payload.frame _ _ _ _ => true
  | _ => false

/-- Embedding of `GstQueueItem` ({item, size, is_query, is_keyframe,
gop_id}; `is_query` is always FALSE and is dropped).  For events the C
code leaves `gop_id` uninitialized and never reads it; the model fixes it
to 0. -/
structure QItem where
  payload : Payload
  size : Nat
  keyframe : Bool
  gopId : Nat
deriving DecidableEq, Repr

/-- Embedding of `GstPreRecSize` as used for `cur_level`. -/
structure Level where
  buffers : Nat
  bytes : Nat
  time : Nat
deriving DecidableEq, Repr

/-- Embedding of `GstPreRecStats`. -/
structure Stats where
  drops_gops : Nat
  drops_buffers : Nat
  drops_events : Nat
  queued_gops_cur : Nat
  queued_buffers_cur : Nat
  flush_count : Nat
  rearm_count : Nat
deriving DecidableEq, Repr

/-- Operating mode (`GstPreRecMode`). -/
inductive Mode where
  | buffering
  | passThrough
deriving DecidableEq, Repr

/-- EOS policy (`GstPreRecFlushOnEos`). -/
inductive FlushOnEos where
  | auto
  | always
  | never
deriving DecidableEq, Repr

/-- The `GstFlowReturn` values this element produces or tests. -/
inductive FlowReturn where
  | ok
  | flushing
  | eosFlow
  | notLinked
deriving DecidableEq, Repr

/-- The shared element state guarded by `loop->lock`, plus the
configuration fields read by the handlers. -/
structure PrerecState where
  queue : List QItem
  curLevel : Level
  maxSizeTime : Nat
  sinkSegment : Segment
  srcSegment : Segment
  sinktime : Option Int
  srctime : Option Int
  sinkStartTime : Option Int
  sinkTainted : Bool
  srcTainted : Bool
  currentGopId : Nat
  lastGopId : Nat
  stats : Stats
  mode : Mode
  flushOnEos : FlushOnEos
  flushTriggerName : Option String
  eosSeen : Bool
  unexpected : Bool
  srcresult : FlowReturn
  newsegAppliedToSrc : Bool
deriving DecidableEq, Repr

/-- `clear_level`. -/
def clear_level : Level := { buffers := 0, bytes := 0, time := 0 }

/-- `gst_loop_is_filled`. -/
def gst_loop_is_filled (s : PrerecState) : Bool :=
  decide (0 < s.maxSizeTime) && decide (s.maxSizeTime ≤ s.curLevel.time)

/-- `gst_loop_is_empty`. -/
def gst_loop_is_empty (s : PrerecState) : Bool :=
  decide (s.curLevel.time = 0) || decide (s.curLevel.buffers = 0)

/-- `update_time_level`: lazily recompute each tainted side's running
time (clearing its tainted flag; an untainted flag is already clear, so
both flags end up false), then derive `cur_level.time`: sink minus
start-time while the output side is invalid, else sink minus src, else
0. -/
def update_time_level (s : PrerecState) : PrerecState :=
  let st :=
    if s.sinkTainted then segment_to_running_time s.sinkSegment s.sinkSegment.position
    else s.sinktime
  let sr :=
    if s.srcTainted then segment_to_running_time s.srcSegment s.srcSegment.position
    else s.srctime
  let t : Nat :=
    match st with
    | none => 0
    | some sinkT =>
      match sr, s.sinkStartTime with
      | none, some startT => if startT ≤ sinkT then (sinkT - startT).toNat else 0
      | some srcT, _ => if srcT ≤ sinkT then (sinkT - srcT).toNat else 0
      | none, none => 0
  { s with
    sinktime := st, srctime := sr, sinkTainted := false, srcTainted := false,
    curLevel := { s.curLevel with time := t } }

/-- Segment normalization inside `locked_apply_segment`: a non-time
segment is closed to a degenerate time segment (start 0, stop unknown,
time 0). -/
def normalizeSegment (seg : Segment) : Segment :=
  if seg.format ≠ Format.time then
    { seg with format := Format.time, start := 0, stop := none, time := 0 }
  else seg

/-- `locked_apply_segment`: store the (normalized) event segment on one
side and clear that side's tainted flag. -/
def locked_apply_segment (s : PrerecState) (seg : Segment) (isSink : Bool) : PrerecState :=
  let n := normalizeSegment seg
  if isSink then { s with sinkSegment := n, sinkTainted := false }
  else { s with srcSegment := n, srcTainted := false }

/-- `locked_apply_gap`: record the start time baseline if needed, advance
the side's position past the gap and recompute the time level. -/
def locked_apply_gap (s : PrerecState) (ts : Nat) (dur : Option Nat) (isSink : Bool) :
    PrerecState :=
  let sst :=
    if isSink && !(s.sinkStartTime.isSome) then
      segment_to_running_time s.sinkSegment (some ts)
    else s.sinkStartTime
  let pos : Nat :=
    match dur with
    | some d => ts + d
    | none => ts
  let s2 :=
    if isSink then
      { s with
        sinkStartTime := sst,
        sinkSegment := { s.sinkSegment with position := some pos },
        sinkTainted := true }
    else
      { s with
        sinkStartTime := sst,
        srcSegment := { s.srcSegment with position := some pos },
        srcTainted := true }
  update_time_level s2

/-- `locked_apply_buffer`: buffers without a timestamp are ignored;
otherwise the side's position advances past the buffer and the time level
is recomputed. -/
def locked_apply_buffer (s : PrerecState) (pts : Option Nat) (dur : Option Nat)
    (isSink : Bool) : PrerecState :=
  match pts with
  | none => s
  | some ts =>
    let sst :=
      if isSink && !(s.sinkStartTime.isSome) then
        segment_to_running_time s.sinkSegment (some ts)
      else s.sinkStartTime
    let pos : Nat :=
      match dur with
      | some d => ts + d
      | none => ts
    let s2 :=
      if isSink then
        { s with
          sinkStartTime := sst,
          sinkSegment := { s.sinkSegment with position := some pos },
          sinkTainted := true }
      else
        { s with
          sinkStartTime := sst,
          srcSegment := { s.srcSegment with position := some pos },
          srcTainted := true }
    update_time_level s2

/-- The `cur_level.buffers == 0` check at the end of the dequeue frame
branch: the buffered time is zeroed when the last frame leaves. -/
def zeroTimeIfEmpty (s : PrerecState) : PrerecState :=
  if s.curLevel.buffers = 0 then
    { s with curLevel := { s.curLevel with time := 0 } }
  else s

/-- The frame branch of `gst_prerec_locked_dequeue`: decrement the level,
update the output side, zero the buffered time when the last frame
leaves. -/
def dequeueFrameStep (s : PrerecState) (sz : Nat) (pts dur : Option Nat) : PrerecState :=
  zeroTimeIfEmpty (locked_apply_buffer
    { s with curLevel := { s.curLevel with
        buffers := s.curLevel.buffers - 1,
        bytes := s.curLevel.bytes - sz } }
    pts dur false)

/-- `gst_prerec_locked_dequeue`: pop the head item; frames decrement the
level, update the output side and zero the buffered time when the last
frame leaves; a queued SEGMENT updates the output segment unless the
fast-path flag is set; a queued GAP updates the output position. -/
def locked_dequeue (s : PrerecState) : Option (QItem × PrerecState) :=
  match s.queue with
  | [] => none
  | q :: rest =>
    let s0 := { s with queue := rest }
    match q.payload with
    | Payload.frame pts dur _ _ => some (q, dequeueFrameStep s0 q.size pts dur)
    | Payload.segmentEvent seg =>
      if !s0.newsegAppliedToSrc then some (q, locked_apply_segment s0 seg false)
      else some (q, { s0 with newsegAppliedToSrc := false })
    | Payload.gapEvent ts dur => some (q, locked_apply_gap s0 ts dur false)

/-- `gst_prerec_locked_flush`: drop every queued item and clear the level;
a full flush also resets both segments and all timing state. -/
def locked_flush (s : PrerecState) (full : Bool) : PrerecState :=
  let s1 := { s with queue := [], curLevel := clear_level }
  if full then
    { s1 with sinkSegment := initSegment, srcSegment := initSegment,
              sinktime := none, srctime := none, sinkStartTime := none,
              sinkTainted := false, srcTainted := false }
  else s1

/-- Frame description as received by the chain function. -/
structure FrameInfo where
  pts : Option Nat
  dur : Option Nat
  size : Nat
  keyframe : Bool
deriving DecidableEq, Repr

/-- `gst_prerec_locked_enqueue_buffer`: assign the GOP id (a keyframe
opens a new GOP), record the oldest GOP id when the queue holds no
buffers, update the level and the input timeline, append the item. -/
def locked_enqueue_buffer (s : PrerecState) (f : FrameInfo) : PrerecState :=
  let gid := if f.keyframe then s.currentGopId + 1 else s.currentGopId
  let s1 := { s with currentGopId := gid }
  let s2 :=
    if s1.queue.length = 0 ∨ s1.curLevel.buffers = 0 then
      { s1 with lastGopId := gid }
    else s1
  let s3 := { s2 with curLevel := { s2.curLevel with
                buffers := s2.curLevel.buffers + 1,
                bytes := s2.curLevel.bytes + f.size } }
  let s4 := locked_apply_buffer s3 f.pts f.dur true
  { s4 with queue := s4.queue ++
      [{ payload := Payload.frame f.pts f.dur f.size f.keyframe,
         size := f.size, keyframe := f.keyframe, gopId := gid }] }

/-- `gst_prerec_locked_enqueue_event` for a SEGMENT event: apply it to the
input side, and also to the output side (setting the fast-path flag) when
the queue is empty; then append the event item. -/
def locked_enqueue_segment (s : PrerecState) (seg : Segment) : PrerecState :=
  let s1 := locked_apply_segment s seg true
  let s2 :=
    if s1.queue = [] then
      { (locked_apply_segment s1 seg false) with newsegAppliedToSrc := true }
    else s1
  { s2 with queue := s2.queue ++
      [{ payload := Payload.segmentEvent seg, size := 0, keyframe := false, gopId := 0 }] }

/-- `gst_prerec_locked_enqueue_event` for a GAP event. -/
def locked_enqueue_gap (s : PrerecState) (ts : Nat) (dur : Option Nat) : PrerecState :=
  let s1 := locked_apply_gap s ts dur true
  { s1 with queue := s1.queue ++
      [{ payload := Payload.gapEvent ts dur, size := 0, keyframe := false, gopId := 0 }] }

/-- `drop_last_item`: dequeue the head item and release it. -/
def drop_last_item (s : PrerecState) : PrerecState :=
  match locked_dequeue s with
  | none => s
  | some (_, s1) => s1

/-- First do-while loop of `gst_prerec_locked_drop` (seek phase): drop
leading events, and drop leading buffers that are not a valid GOP head
(not a keyframe, or GOP id different from `last_gop_id`).  The loop in C
peeks the head each round and exits at the first valid head (`at_first`)
or when the queue empties; fuel bounds the recursion and the callers pass
the queue length, which suffices because each round pops one item.
Returns the state together with the running event/buffer drop counters. -/
def dropSeekPhase : Nat → PrerecState → Nat → Nat → PrerecState × Nat × Nat
  | 0, s, ev, bu => (s, ev, bu)
  | n + 1, s, ev, bu =>
    match s.queue with
    | [] => (s, ev, bu)
    | q :: _ =>
      if q.payload.isFrame then
        if q.keyframe = false ∨ q.gopId ≠ s.lastGopId then
          dropSeekPhase n (drop_last_item s) ev (bu + 1)
        else (s, ev, bu)
      else dropSeekPhase n (drop_last_item s) (ev + 1) bu

/-- Second do-while loop of `gst_prerec_locked_drop` (evict phase): drop
events and buffers of the GOP `last_gop_id`; the first buffer with a
different GOP id becomes the new head and its id the new `last_gop_id`. -/
def dropEvictPhase : Nat → PrerecState → Nat → Nat → PrerecState × Nat × Nat
  | 0, s, ev, bu => (s, ev, bu)
  | n + 1, s, ev, bu =>
    match s.queue with
    | [] => (s, ev, bu)
    | q :: _ =>
      if q.payload.isFrame then
        if q.gopId = s.lastGopId then
          dropEvictPhase n (drop_last_item s) ev (bu + 1)
        else ({ s with lastGopId := q.gopId }, ev, bu)
      else dropEvictPhase n (drop_last_item s) (ev + 1) bu

/-- `gst_prerec_locked_drop`: seek to a valid GOP head, bail out (without
touching the stats) if the loop looks empty, otherwise evict the oldest
GOP and update the drop statistics and the queued snapshot. -/
def locked_drop (s : PrerecState) : PrerecState :=
  let r1 := dropSeekPhase s.queue.length s 0 0
  let s1 := r1.1
  if gst_loop_is_empty s1 then s1
  else
    let r2 := dropEvictPhase s1.queue.length s1 r1.2.1 r1.2.2
    let s2 := r2.1
    { s2 with stats := { s2.stats with
        drops_events := s2.stats.drops_events + r2.2.1,
        drops_buffers := s2.stats.drops_buffers + r2.2.2,
        drops_gops := s2.stats.drops_gops + 1,
        queued_buffers_cur := s2.curLevel.buffers,
        queued_gops_cur :=
          if s2.lastGopId ≤ s2.currentGopId then
            s2.currentGopId - s2.lastGopId + 1
          else s2.stats.queued_gops_cur } }

/-- `gst_prerec_queued_gops`: 0 on an empty buffer level, else the id
span `current_gop_id - last_gop_id + 1` (0 defensively on underflow). -/
def gst_prerec_queued_gops (s : PrerecState) : Nat :=
  if s.curLevel.buffers = 0 then 0
  else if s.lastGopId ≤ s.currentGopId then s.currentGopId - s.lastGopId + 1
  else 0

/-- `gst_prerec_should_prune`: over budget and above the 2-GOP floor. -/
def gst_prerec_should_prune (s : PrerecState) : Bool :=
  gst_loop_is_filled s && decide (2 < gst_prerec_queued_gops s)

/-- The pruning while-loop of `gst_pre_record_loop_chain`, with explicit
fuel: while `should_prune`, record the GOP count, drop a GOP, and stop at
the 2-GOP floor or when the count stops decreasing.  `pruneLoop_fuel_spec`
proves that `gst_prerec_queued_gops s` fuel is always enough, so the fuel
never truncates the C loop. -/
def pruneLoopFuel : Nat → PrerecState → PrerecState
  | 0, s => s
  | n + 1, s =>
    if gst_prerec_should_prune s then
      let before := gst_prerec_queued_gops s
      let s1 := locked_drop s
      let after := gst_prerec_queued_gops s1
      if after ≤ 2 then s1
      else if before ≤ after then s1
      else pruneLoopFuel n s1
    else s

/-- `gst_pre_record_loop_chain`: refuse while flushing or after EOS,
forward directly in PASS_THROUGH, enqueue + prune + refresh the queued
stats snapshot in BUFFERING.  The returned list holds the payloads pushed
to the source pad. -/
def chain (s : PrerecState) (f : FrameInfo) : FlowReturn × PrerecState × List Payload :=
  if s.srcresult ≠ FlowReturn.ok then (s.srcresult, s, [])
  else if s.eosSeen then (FlowReturn.eosFlow, s, [])
  else if s.unexpected then (FlowReturn.eosFlow, s, [])
  else
    match s.mode with
    | Mode.passThrough => (FlowReturn.ok, s, [Payload.frame f.pts f.dur f.size f.keyframe])
    | Mode.buffering =>
      let s1 := locked_enqueue_buffer s f
      let s2 := pruneLoopFuel (gst_prerec_queued_gops s1) s1
      let s3 := { s2 with stats := { s2.stats with
                    queued_buffers_cur := s2.curLevel.buffers,
                    queued_gops_cur := gst_prerec_queued_gops s2 } }
      (FlowReturn.ok, s3, [])

/-- One round of the drain loops in the sink event handler (EOS drain and
flush-trigger drain): dequeue until empty, pushing every dequeued payload
downstream in order.  Fuel = queue length (each dequeue pops one item). -/
def drainN : Nat → PrerecState → PrerecState × List Payload
  | 0, s => (s, [])
  | n + 1, s =>
    match locked_dequeue s with
    | none => (s, [])
    | some (q, s1) =>
      let r := drainN n s1
      (r.1, q.payload :: r.2)

/-- The full `while (gst_prerec_locked_dequeue(...)) push` drain loop. -/
def drainAll (s : PrerecState) : PrerecState × List Payload :=
  drainN s.queue.length s

/-- The EOS drain decision of `gst_pre_record_loop_sink_event` (FR-023):
drain when the policy is ALWAYS, or when it is AUTO and the mode is
PASS_THROUGH. -/
def shouldDrainEos (s : PrerecState) : Bool :=
  decide (s.flushOnEos = FlushOnEos.always) ||
    (decide (s.flushOnEos = FlushOnEos.auto) && decide (s.mode = Mode.passThrough))

/-- The `GST_EVENT_EOS` branch of `gst_pre_record_loop_sink_event`.
Returns the state, the payloads drained to the source pad before EOS, and
whether the EOS event itself is forwarded (always true). -/
def sink_event_eos (s : PrerecState) : PrerecState × List Payload × Bool :=
  if shouldDrainEos s then
    let r := drainAll s
    let s2 := { r.1 with
      currentGopId := 0, lastGopId := 0,
      stats := { r.1.stats with queued_gops_cur := 0, queued_buffers_cur := 0 } }
    (s2, r.2, true)
  else if s.queue ≠ [] then
    let s1 := locked_flush s true
    let s2 := { s1 with
      currentGopId := 0, lastGopId := 0,
      stats := { s1.stats with queued_gops_cur := 0, queued_buffers_cur := 0 } }
    (s2, [], true)
  else (s, [], true)

/-- The BUFFERING arm of the flush-trigger handler: count the flush,
drain the whole queue downstream, switch to PASS_THROUGH. -/
def flushTriggerDrain (s : PrerecState) : PrerecState × List Payload :=
  let s0 := { s with stats := { s.stats with flush_count := s.stats.flush_count + 1 } }
  let r := drainAll s0
  let s2 := { r.1 with mode := Mode.passThrough }
  (s2, r.2)

/-- The `GST_EVENT_CUSTOM_DOWNSTREAM` branch of the sink event handler:
when the structure name matches the configured flush-trigger name
(default "prerecord-flush") and the mode is BUFFERING, count the flush,
drain the whole queue downstream and switch to PASS_THROUGH; a matching
trigger in PASS_THROUGH only consumes the event.  A non-matching event
goes to the default handler (no queue emission, state unchanged). -/
def sink_event_custom_downstream (s : PrerecState) (name : String) :
    PrerecState × List Payload :=
  let expected := s.flushTriggerName.getD "prerecord-flush"
  if name = expected then
    match s.mode with
    | Mode.buffering => flushTriggerDrain s
    | Mode.passThrough => (s, [])
  else (s, [])

/-- The default-case handling of a serialized SEGMENT event on the sink
pad: queued (with the input side updated) only in BUFFERING; in
PASS_THROUGH only forwarded.  The forward to the default handler does not
touch the modelled state. -/
def sink_event_segment (s : PrerecState) (seg : Segment) : PrerecState :=
  if s.mode = Mode.buffering then locked_enqueue_segment s seg else s

/-- The default-case handling of a serialized GAP event on the sink pad. -/
def sink_event_gap (s : PrerecState) (ts : Nat) (dur : Option Nat) : PrerecState :=
  if s.mode = Mode.buffering then locked_enqueue_gap s ts dur else s

/-- The `GST_EVENT_FLUSH_START` branch: full flush, reset GOP tracking and
the queued stats snapshot, mark the element flushing. -/
def sink_event_flush_start (s : PrerecState) : PrerecState :=
  let s1 := locked_flush s true
  { s1 with
    currentGopId := 0, lastGopId := 0,
    stats := { s1.stats with queued_gops_cur := 0, queued_buffers_cur := 0 },
    srcresult := FlowReturn.flushing }

/-- The `GST_EVENT_FLUSH_STOP` branch: accept data again; on
`reset_time` also reinitialize both segments and the timing state. -/
def sink_event_flush_stop (s : PrerecState) (resetTime : Bool) : PrerecState :=
  let s1 := { s with srcresult := FlowReturn.ok }
  if resetTime then
    { s1 with
      sinkSegment := initSegment, srcSegment := initSegment,
      sinktime := none, srctime := none, sinkStartTime := none,
      sinkTainted := false, srcTainted := false }
  else s1

/-- The "prerecord-arm" branch of `gst_pre_record_loop_src_event`: only
acts in PASS_THROUGH — counts the rearm, re-enters BUFFERING and resets
GOP tracking, the level and all timing state.  The queue itself is not
touched by the C code (it is already empty in PASS_THROUGH). -/
def src_event_arm (s : PrerecState) : PrerecState :=
  if s.mode = Mode.passThrough then
    { s with
      stats := { s.stats with rearm_count := s.stats.rearm_count + 1 },
      mode := Mode.buffering,
      currentGopId := 0, lastGopId := 0,
      curLevel := clear_level,
      sinkSegment := initSegment, srcSegment := initSegment,
      sinktime := none, srctime := none, sinkStartTime := none,
      sinkTainted := false, srcTainted := false }
  else s

/-- `gst_pre_record_loop_init` plus the configurable properties: the
element starts BUFFERING with an empty queue, zeroed level and stats,
TIME segments and invalid stream times. -/
def initState (maxTime : Nat) (policy : FlushOnEos) (trigName : Option String) :
    PrerecState :=
  { queue := [], curLevel := clear_level, maxSizeTime := maxTime,
    sinkSegment := initSegment, srcSegment := initSegment,
    sinktime := none, srctime := none, sinkStartTime := none,
    sinkTainted := false, srcTainted := false,
    currentGopId := 0, lastGopId := 0,
    stats := { drops_gops := 0, drops_buffers := 0, drops_events := 0,
               queued_gops_cur := 0, queued_buffers_cur := 0,
               flush_count := 0, rearm_count := 0 },
    mode := Mode.buffering, flushOnEos := policy, flushTriggerName := trigName,
    eosSeen := false, unexpected := false, srcresult := FlowReturn.ok,
    newsegAppliedToSrc := false }

/-- The externally driven operations that mutate the shared state:
buffers on the chain function, sink events, the upstream rearm event,
pad (de)activation and the property setters. -/
inductive Input where
  | buf (f : FrameInfo)
  | eosEvent
  | segmentEvent (seg : Segment)
  | gapEvent (ts : Nat) (dur : Option Nat)
  | customDownstream (name : String)
  | flushStart
  | flushStop (resetTime : Bool)
  | arm
  | deactivateSrc
  | deactivateSink
  | activatePads
  | setMaxTime (secs : Int)
  | setPolicy (p : FlushOnEos)
  | setTrigger (n : Option String)
deriving Repr

/-- `gst_pre_record_loop_set_property` for max-time: clamp negative
seconds to 0 and convert to nanoseconds. -/
def setMaxTimeSecs (s : PrerecState) (secs : Int) : PrerecState :=
  { s with maxSizeTime := (max secs 0).toNat * 1000000000 }

/-- The state transition of one input (ignoring the produced output). -/
def stepState (s : PrerecState) : Input → PrerecState
  | Input.buf f => (chain s f).2.1
  | Input.eosEvent => (sink_event_eos s).1
  | Input.segmentEvent seg => sink_event_segment s seg
  | Input.gapEvent ts dur => sink_event_gap s ts dur
  | Input.customDownstream name => (sink_event_custom_downstream s name).1
  | Input.flushStart => sink_event_flush_start s
  | Input.flushStop rt => sink_event_flush_stop s rt
  | Input.arm => src_event_arm s
  | Input.deactivateSrc =>
      locked_flush { s with srcresult := FlowReturn.flushing } false
  | Input.deactivateSink =>
      locked_flush { s with srcresult := FlowReturn.flushing } true
  | Input.activatePads => { s with srcresult := FlowReturn.ok, eosSeen := false }
  | Input.setMaxTime secs => setMaxTimeSecs s secs
  | Input.setPolicy p => { s with flushOnEos := p }
  | Input.setTrigger n => { s with flushTriggerName := n }

/-- States reachable from some initial configuration by any sequence of
inputs. -/
inductive Reach : PrerecState → Prop where
  | init (maxTime : Nat) (policy : FlushOnEos) (trigName : Option String) :
      Reach (initState maxTime policy trigName)
  | step {s : PrerecState} (i : Input) : Reach s → Reach (stepState s i)

/-- States reachable under the upstream contract of the spec: every frame
submitted while no frames are queued is a keyframe (a GOP always opens
with a keyframe). -/
inductive ReachC : PrerecState → Prop where
  | init (maxTime : Nat) (policy : FlushOnEos) (trigName : Option String) :
      ReachC (initState maxTime policy trigName)
  | stepBuf {s : PrerecState} (f : FrameInfo) :
      ReachC s → (s.curLevel.buffers = 0 → f.keyframe = true) →
      ReachC (stepState s (Input.buf f))
  | stepOther {s : PrerecState} (i : Input) :
      ReachC s → (∀ f, i ≠ Input.buf f) → ReachC (stepState s i)

/-- The frame (buffer) items of a queue. -/
def frames (q : List QItem) : List QItem := q.filter (fun x => x.payload.isFrame)

/-- GOP-id ordering along a frame list, relative to the previous id `g`:
each next frame either stays in GOP `g` or opens GOP `g + 1` with a
keyframe. -/
def chainFrom (g : Nat) : List QItem → Prop
  | [] => True
  | b :: l => (b.gopId = g ∨ (b.gopId = g + 1 ∧ b.keyframe = true)) ∧ chainFrom b.gopId l

/-- The GOP id of the last frame of the list (or `g` for the empty
list). -/
def lastGopOf (g : Nat) : List QItem → Nat
  | [] => g
  | b :: l => lastGopOf b.gopId l

/-- Well-formed frame content of the queue: the first frame is the
keyframe of GOP `last`, GOP ids grow by steps of one (each step opened by
a keyframe) and the newest frame carries GOP `cur`. -/
def framesOk (last cur : Nat) : List QItem → Prop
  | [] => True
  | b :: l => b.gopId = last ∧ b.keyframe = true ∧ chainFrom b.gopId l ∧
      lastGopOf b.gopId l = cur

/-- Control/configuration fields never touched by queue operations. -/
def ctlEq (a b : PrerecState) : Prop :=
  a.mode = b.mode ∧ a.flushOnEos = b.flushOnEos ∧
  a.flushTriggerName = b.flushTriggerName ∧ a.maxSizeTime = b.maxSizeTime ∧
  a.eosSeen = b.eosSeen ∧ a.unexpected = b.unexpected ∧ a.srcresult = b.srcresult

/-- `ctlEq` plus GOP tracking and stats: everything a dequeue leaves
alone. -/
def coreEq (a b : PrerecState) : Prop :=
  ctlEq a b ∧ a.currentGopId = b.currentGopId ∧ a.lastGopId = b.lastGopId ∧
  a.stats = b.stats

/-- Structural invariant of reachable states (no upstream contract
needed): the buffer count matches the queued frames, `last_gop_id` never
exceeds `current_gop_id`, every queued frame's GOP id is at most
`current_gop_id`, and in PASS_THROUGH the queue is empty. -/
structure WInv (s : PrerecState) : Prop where
  buffers_eq : s.curLevel.buffers = (frames s.queue).length
  last_le : s.lastGopId ≤ s.currentGopId
  gops_le : ∀ x ∈ frames s.queue, x.gopId ≤ s.currentGopId
  pt_empty : s.mode = Mode.passThrough → s.queue = []

/-- Structural invariant of states reachable under the upstream contract:
`WInv` strengthened with the full GOP layout of the queued frames. -/
structure SInv (s : PrerecState) : Prop where
  buffers_eq : s.curLevel.buffers = (frames s.queue).length
  last_le : s.lastGopId ≤ s.currentGopId
  fok : framesOk s.lastGopId s.currentGopId (frames s.queue)
  pt_empty : s.mode = Mode.passThrough → s.queue = []

/-- Folding the chain function over a frame sequence (states only). -/
def runChain (s : PrerecState) : List FrameInfo → PrerecState
  | [] => s
  | f :: fs => runChain (chain s f).2.1 fs

/-- The upstream contract along a pure chain run: every frame submitted
while no frames are queued is a keyframe. -/
def contractRun (s : PrerecState) : List FrameInfo → Bool
  | [] => true
  | f :: fs => (!decide (s.curLevel.buffers = 0) || f.keyframe) &&
      contractRun (chain s f).2.1 fs

/-- Bookkeeping invariant of pure BUFFERING chain runs used for the 2-GOP
floor: structural well-formedness, a zero GOP counter while no frame was
ever queued, at least one opened GOP once frames are queued, and the floor
disjunction itself. -/
def FloorInv (s : PrerecState) : Prop :=
  SInv s ∧ (s.curLevel.buffers = 0 → s.currentGopId = 0) ∧
  (s.curLevel.buffers ≠ 0 → 1 ≤ s.lastGopId) ∧
  (s.lastGopId ≤ 1 ∨ 2 ≤ gst_prerec_queued_gops s)

theorem coreEq_refl (a : PrerecState) : coreEq a a :=
  ⟨⟨rfl, rfl, rfl, rfl, rfl, rfl, rfl⟩, rfl, rfl, rfl⟩

theorem coreEq_trans {a b c : PrerecState} (h1 : coreEq a b) (h2 : coreEq b c) :
    coreEq a c := by
  obtain ⟨⟨m1, p1, n1, x1, e1, u1, r1⟩, c1, l1, t1⟩ := h1
  obtain ⟨⟨m2, p2, n2, x2, e2, u2, r2⟩, c2, l2, t2⟩ := h2
  exact ⟨⟨m1.trans m2, p1.trans p2, n1.trans n2, x1.trans x2, e1.trans e2,
    u1.trans u2, r1.trans r2⟩, c1.trans c2, l1.trans l2, t1.trans t2⟩

theorem update_time_level_fields (s : PrerecState) :
    (update_time_level s).queue = s.queue ∧
    (update_time_level s).curLevel.buffers = s.curLevel.buffers ∧
    (update_time_level s).curLevel.bytes = s.curLevel.bytes ∧
    (update_time_level s).newsegAppliedToSrc = s.newsegAppliedToSrc ∧
    (update_time_level s).sinkStartTime = s.sinkStartTime ∧
    coreEq (update_time_level s) s :=
  ⟨rfl, rfl, rfl, rfl, rfl, coreEq_refl s⟩

theorem locked_apply_segment_fields (s : PrerecState) (seg : Segment) (b : Bool) :
    (locked_apply_segment s seg b).queue = s.queue ∧
    (locked_apply_segment s seg b).curLevel = s.curLevel ∧
    (locked_apply_segment s seg b).newsegAppliedToSrc = s.newsegAppliedToSrc ∧
    (locked_apply_segment s seg b).sinkStartTime = s.sinkStartTime ∧
    coreEq (locked_apply_segment s seg b) s := by
  cases b <;> exact ⟨rfl, rfl, rfl, rfl, coreEq_refl s⟩

theorem locked_apply_gap_fields (s : PrerecState) (ts : Nat) (dur : Option Nat)
    (b : Bool) :
    (locked_apply_gap s ts dur b).queue = s.queue ∧
    (locked_apply_gap s ts dur b).curLevel.buffers = s.curLevel.buffers ∧
    (locked_apply_gap s ts dur b).curLevel.bytes = s.curLevel.bytes ∧
    (locked_apply_gap s ts dur b).newsegAppliedToSrc = s.newsegAppliedToSrc ∧
    coreEq (locked_apply_gap s ts dur b) s := by
  cases b <;> exact ⟨rfl, rfl, rfl, rfl, coreEq_refl s⟩

theorem locked_apply_buffer_fields (s : PrerecState) (pts : Option Nat)
    (dur : Option Nat) (b : Bool) :
    (locked_apply_buffer s pts dur b).queue = s.queue ∧
    (locked_apply_buffer s pts dur b).curLevel.buffers = s.curLevel.buffers ∧
    (locked_apply_buffer s pts dur b).curLevel.bytes = s.curLevel.bytes ∧
    (locked_apply_buffer s pts dur b).newsegAppliedToSrc = s.newsegAppliedToSrc ∧
    coreEq (locked_apply_buffer s pts dur b) s := by
  cases pts with
  | none => exact ⟨rfl, rfl, rfl, rfl, coreEq_refl s⟩
  | some ts => cases b <;> exact ⟨rfl, rfl, rfl, rfl, coreEq_refl s⟩

theorem locked_dequeue_nil (s : PrerecState) (h : s.queue = []) :
    locked_dequeue s = none := by
  unfold locked_dequeue
  rw [h]

theorem zeroTimeIfEmpty_fields (s : PrerecState) :
    (zeroTimeIfEmpty s).queue = s.queue ∧
    (zeroTimeIfEmpty s).curLevel.buffers = s.curLevel.buffers ∧
    (zeroTimeIfEmpty s).curLevel.bytes = s.curLevel.bytes ∧
    (zeroTimeIfEmpty s).newsegAppliedToSrc = s.newsegAppliedToSrc ∧
    coreEq (zeroTimeIfEmpty s) s := by
  unfold zeroTimeIfEmpty
  split
  · exact ⟨rfl, rfl, rfl, rfl, coreEq_refl s⟩
  · exact ⟨rfl, rfl, rfl, rfl, coreEq_refl s⟩

theorem dequeueFrameStep_fields (s : PrerecState) (sz : Nat) (pts dur : Option Nat) :
    (dequeueFrameStep s sz pts dur).queue = s.queue ∧
    (dequeueFrameStep s sz pts dur).curLevel.buffers = s.curLevel.buffers - 1 ∧
    (dequeueFrameStep s sz pts dur).newsegAppliedToSrc = s.newsegAppliedToSrc ∧
    coreEq (dequeueFrameStep s sz pts dur) s := by
  have h1 := locked_apply_buffer_fields
    { s with curLevel := { s.curLevel with
        buffers := s.curLevel.buffers - 1, bytes := s.curLevel.bytes - sz } }
    pts dur false
  have h2 := zeroTimeIfEmpty_fields (locked_apply_buffer
    { s with curLevel := { s.curLevel with
        buffers := s.curLevel.buffers - 1, bytes := s.curLevel.bytes - sz } }
    pts dur false)
  unfold dequeueFrameStep
  refine ⟨h2.1.trans h1.1, h2.2.1.trans h1.2.1, h2.2.2.2.1.trans h1.2.2.2.1,
    coreEq_trans h2.2.2.2.2 (coreEq_trans h1.2.2.2.2 (coreEq_refl s))⟩

theorem locked_dequeue_cons (s : PrerecState) (q : QItem) (rest : List QItem)
    (h : s.queue = q :: rest) :
    ∃ s1, locked_dequeue s = some (q, s1) ∧ s1.queue = rest ∧ coreEq s1 s ∧
      s1.curLevel.buffers =
        (if q.payload.isFrame then s.curLevel.buffers - 1 else s.curLevel.buffers) := by
  unfold locked_dequeue
  rw [h]
  dsimp only
  cases hp : q.payload with
  | frame pts dur sz kf =>
    have h1 := dequeueFrameStep_fields { s with queue := rest } q.size pts dur
    simp only [Payload.isFrame, if_pos]
    exact ⟨_, rfl, h1.1, coreEq_trans h1.2.2.2 (coreEq_refl s), h1.2.1⟩
  | segmentEvent seg =>
    have h1 := locked_apply_segment_fields { s with queue := rest } seg false
    dsimp only
    split
    · refine ⟨_, rfl, h1.1, coreEq_trans h1.2.2.2.2 (coreEq_refl s), ?_⟩
      simp [Payload.isFrame, h1.2.1]
    · exact ⟨_, rfl, rfl, coreEq_refl _, by simp [Payload.isFrame]⟩
  | gapEvent ts dur =>
    have h1 := locked_apply_gap_fields { s with queue := rest } ts dur false
    refine ⟨_, rfl, h1.1, coreEq_trans h1.2.2.2.2 (coreEq_refl s), ?_⟩
    simp [Payload.isFrame, h1.2.1]

theorem frames_cons (q : QItem) (l : List QItem) :
    frames (q :: l) = if q.payload.isFrame then q :: frames l else frames l := by
  simp [frames, List.filter_cons]

theorem frames_append (l1 l2 : List QItem) :
    frames (l1 ++ l2) = frames l1 ++ frames l2 := by
  simp [frames, List.filter_append]

theorem drop_last_item_cons (s : PrerecState) (q : QItem) (rest : List QItem)
    (h : s.queue = q :: rest) :
    (drop_last_item s).queue = rest ∧ coreEq (drop_last_item s) s ∧
    (drop_last_item s).curLevel.buffers =
      (if q.payload.isFrame then s.curLevel.buffers - 1 else s.curLevel.buffers) := by
  obtain ⟨s1, he, hq, hc, hb⟩ := locked_dequeue_cons s q rest h
  unfold drop_last_item
  rw [he]
  exact ⟨hq, hc, hb⟩

theorem drainN_spec (q : List QItem) : ∀ s : PrerecState, s.queue = q →
    (drainN q.length s).2 = q.map (fun x => x.payload) ∧
    (drainN q.length s).1.queue = [] ∧
    coreEq (drainN q.length s).1 s ∧
    (drainN q.length s).1.curLevel.buffers =
      s.curLevel.buffers - (frames q).length := by
  induction q with
  | nil =>
    intro s hs
    exact ⟨rfl, hs, coreEq_refl s, rfl⟩
  | cons a l ih =>
    intro s hs
    obtain ⟨s1, he, hq, hc, hb⟩ := locked_dequeue_cons s a l hs
    have ihs := ih s1 hq
    have hlen : (a :: l).length = l.length + 1 := rfl
    rw [hlen]
    unfold drainN
    rw [he]
    refine ⟨?_, ihs.2.1, coreEq_trans ihs.2.2.1 hc, ?_⟩
    · simp [ihs.1]
    · rw [ihs.2.2.2, hb, frames_cons]
      by_cases hf : a.payload.isFrame
      · simp only [hf, if_true, List.length_cons]
        omega
      · simp [hf]

theorem drainAll_spec (s : PrerecState) :
    (drainAll s).2 = s.queue.map (fun x => x.payload) ∧
    (drainAll s).1.queue = [] ∧
    coreEq (drainAll s).1 s ∧
    (drainAll s).1.curLevel.buffers =
      s.curLevel.buffers - (frames s.queue).length :=
  drainN_spec s.queue s rfl

theorem locked_flush_fields (s : PrerecState) (full : Bool) :
    (locked_flush s full).queue = [] ∧
    (locked_flush s full).curLevel = clear_level ∧
    coreEq (locked_flush s full) s := by
  cases full
  · exact ⟨rfl, rfl, coreEq_refl s⟩
  · exact ⟨rfl, rfl, coreEq_refl s⟩

theorem pruneLoopFuel_not (s : PrerecState) (h : gst_prerec_should_prune s = false) :
    ∀ m, pruneLoopFuel m s = s := by
  intro m
  cases m with
  | zero => rfl
  | succ k =>
    unfold pruneLoopFuel
    rw [h]
    simp

theorem should_prune_gops (s : PrerecState) (h : gst_prerec_should_prune s = true) :
    2 < gst_prerec_queued_gops s := by
  have := (Bool.and_eq_true _ _).mp h
  exact of_decide_eq_true this.2

theorem pruneLoopFuel_succ_prune (s : PrerecState) (k : Nat)
    (h : gst_prerec_should_prune s = true) :
    pruneLoopFuel (k + 1) s =
      (if gst_prerec_queued_gops (locked_drop s) ≤ 2 then locked_drop s
       else if gst_prerec_queued_gops s ≤ gst_prerec_queued_gops (locked_drop s) then
         locked_drop s
       else pruneLoopFuel k (locked_drop s)) := by
  conv =>
    lhs
    unfold pruneLoopFuel
  rw [h]
  simp

theorem pruneLoopFuel_stable : ∀ n (s : PrerecState),
    gst_prerec_queued_gops s ≤ n →
    pruneLoopFuel n s = pruneLoopFuel (gst_prerec_queued_gops s) s := by
  intro n
  induction n using Nat.strong_induction_on with
  | _ n ih =>
    intro s hs
    by_cases hp : gst_prerec_should_prune s = true
    · have hg := should_prune_gops s hp
      obtain ⟨k, hk⟩ : ∃ k, n = k + 1 := ⟨n - 1, by omega⟩
      obtain ⟨j, hj⟩ : ∃ j, gst_prerec_queued_gops s = j + 1 :=
        ⟨gst_prerec_queued_gops s - 1, by omega⟩
      rw [hk, hj, pruneLoopFuel_succ_prune s k hp, pruneLoopFuel_succ_prune s j hp]
      by_cases h2 : gst_prerec_queued_gops (locked_drop s) ≤ 2
      · rw [if_pos h2, if_pos h2]
      · rw [if_neg h2, if_neg h2]
        by_cases h3 : gst_prerec_queued_gops s ≤ gst_prerec_queued_gops (locked_drop s)
        · rw [if_pos h3, if_pos h3]
        · rw [if_neg h3, if_neg h3]
          have hdrop : gst_prerec_queued_gops (locked_drop s) <
              gst_prerec_queued_gops s := by omega
          have hkn : k < n := by omega
          have hjn : j < n := by omega
          have hak : gst_prerec_queued_gops (locked_drop s) ≤ k := by omega
          have haj : gst_prerec_queued_gops (locked_drop s) ≤ j := by omega
          rw [ih k hkn (locked_drop s) hak, ih j hjn (locked_drop s) haj]
    · have hp2 : gst_prerec_should_prune s = false := by
        cases hb : gst_prerec_should_prune s
        · rfl
        · exact absurd hb hp
      rw [pruneLoopFuel_not s hp2, pruneLoopFuel_not s hp2]

theorem locked_enqueue_buffer_spec (s : PrerecState) (f : FrameInfo) :
    (locked_enqueue_buffer s f).queue = s.queue ++
      [{ payload := Payload.frame f.pts f.dur f.size f.keyframe, size := f.size,
         keyframe := f.keyframe,
         gopId := if f.keyframe then s.currentGopId + 1 else s.currentGopId }] ∧
    (locked_enqueue_buffer s f).currentGopId =
      (if f.keyframe then s.currentGopId + 1 else s.currentGopId) ∧
    (locked_enqueue_buffer s f).lastGopId =
      (if s.queue.length = 0 ∨ s.curLevel.buffers = 0 then
        (if f.keyframe then s.currentGopId + 1 else s.currentGopId)
       else s.lastGopId) ∧
    (locked_enqueue_buffer s f).curLevel.buffers = s.curLevel.buffers + 1 ∧
    (locked_enqueue_buffer s f).stats = s.stats ∧
    ctlEq (locked_enqueue_buffer s f) s := by
  unfold locked_enqueue_buffer
  dsimp only
  by_cases hc : s.queue.length = 0 ∨ s.curLevel.buffers = 0
  · rw [if_pos hc, if_pos hc]
    have h1 := locked_apply_buffer_fields
      { s with
        currentGopId := if f.keyframe then s.currentGopId + 1 else s.currentGopId,
        lastGopId := if f.keyframe then s.currentGopId + 1 else s.currentGopId,
        curLevel := { s.curLevel with
          buffers := s.curLevel.buffers + 1, bytes := s.curLevel.bytes + f.size } }
      f.pts f.dur true
    refine ⟨?_, h1.2.2.2.2.2.1, h1.2.2.2.2.2.2.1, h1.2.1, h1.2.2.2.2.2.2.2,
      h1.2.2.2.2.1⟩
    rw [h1.1]
  · rw [if_neg hc, if_neg hc]
    have h1 := locked_apply_buffer_fields
      { s with
        currentGopId := if f.keyframe then s.currentGopId + 1 else s.currentGopId,
        curLevel := { s.curLevel with
          buffers := s.curLevel.buffers + 1, bytes := s.curLevel.bytes + f.size } }
      f.pts f.dur true
    refine ⟨?_, h1.2.2.2.2.2.1, h1.2.2.2.2.2.2.1, h1.2.1, h1.2.2.2.2.2.2.2,
      h1.2.2.2.2.1⟩
    rw [h1.1]

theorem locked_enqueue_segment_spec (s : PrerecState) (seg : Segment) :
    (locked_enqueue_segment s seg).queue = s.queue ++
      [{ payload := Payload.segmentEvent seg, size := 0, keyframe := false,
         gopId := 0 }] ∧
    (locked_enqueue_segment s seg).curLevel = s.curLevel ∧
    coreEq (locked_enqueue_segment s seg) s := by
  unfold locked_enqueue_segment
  dsimp only
  have h1 := locked_apply_segment_fields s seg true
  split
  next hc =>
    have hsq : s.queue = [] := by rw [h1.1] at hc; exact hc
    have h2 := locked_apply_segment_fields (locked_apply_segment s seg true) seg false
    refine ⟨?_, ?_, ?_⟩
    · show (locked_apply_segment (locked_apply_segment s seg true) seg false).queue ++
        [{ payload := Payload.segmentEvent seg, size := 0, keyframe := false,
           gopId := 0 }] = _
      rw [h2.1, h1.1, hsq]
    · show (locked_apply_segment (locked_apply_segment s seg true) seg false).curLevel = _
      rw [h2.2.1, h1.2.1]
    · exact coreEq_trans
        (coreEq_trans ⟨⟨rfl, rfl, rfl, rfl, rfl, rfl, rfl⟩, rfl, rfl, rfl⟩ h2.2.2.2.2)
        (coreEq_trans h1.2.2.2.2 (coreEq_refl s))
  next hc =>
    exact ⟨by rw [h1.1], h1.2.1, coreEq_trans h1.2.2.2.2 (coreEq_refl s)⟩

theorem locked_enqueue_gap_spec (s : PrerecState) (ts : Nat) (dur : Option Nat) :
    (locked_enqueue_gap s ts dur).queue = s.queue ++
      [{ payload := Payload.gapEvent ts dur, size := 0, keyframe := false,
         gopId := 0 }] ∧
    (locked_enqueue_gap s ts dur).curLevel.buffers = s.curLevel.buffers ∧
    coreEq (locked_enqueue_gap s ts dur) s := by
  unfold locked_enqueue_gap
  dsimp only
  have h1 := locked_apply_gap_fields s ts dur true
  exact ⟨by rw [h1.1], h1.2.1, coreEq_trans h1.2.2.2.2 (coreEq_refl s)⟩

theorem drop_last_item_empty (s : PrerecState) (h : s.queue = []) :
    drop_last_item s = s := by
  unfold drop_last_item
  rw [locked_dequeue_nil s h]

theorem drop_last_item_sublist (s : PrerecState) :
    (drop_last_item s).queue.Sublist s.queue ∧ coreEq (drop_last_item s) s := by
  cases hq : s.queue with
  | nil =>
    rw [drop_last_item_empty s hq, hq]
    exact ⟨List.Sublist.refl [], coreEq_refl s⟩
  | cons q rest =>
    obtain ⟨hres, hc, _⟩ := drop_last_item_cons s q rest hq
    rw [hres]
    exact ⟨List.sublist_cons_self q rest, hc⟩

theorem drop_last_item_beq (s : PrerecState)
    (h : s.curLevel.buffers = (frames s.queue).length) :
    (drop_last_item s).curLevel.buffers = (frames (drop_last_item s).queue).length := by
  cases hq : s.queue with
  | nil =>
    have hnone : locked_dequeue s = none := locked_dequeue_nil s hq
    unfold drop_last_item
    rw [hnone]
    rw [h]
  | cons q rest =>
    obtain ⟨hres, _, hb⟩ := drop_last_item_cons s q rest hq
    rw [hres, hb, h, hq, frames_cons]
    by_cases hf : q.payload.isFrame
    · simp [hf]
    · simp [hf]

theorem drop_last_item_WInv {s : PrerecState} (h : WInv s) :
    WInv (drop_last_item s) := by
  obtain ⟨hsub, hc⟩ := drop_last_item_sublist s
  refine ⟨drop_last_item_beq s h.buffers_eq, ?_, ?_, ?_⟩
  · rw [hc.2.1, hc.2.2.1]
    exact h.last_le
  · intro x hx
    rw [hc.2.1]
    exact h.gops_le x ((hsub.filter _).subset hx)
  · intro hm
    rw [hc.1.1] at hm
    have := h.pt_empty hm
    cases hq : s.queue with
    | nil =>
      have hnone : locked_dequeue s = none := locked_dequeue_nil s hq
      unfold drop_last_item
      rw [hnone]
      exact hq
    | cons q rest => rw [hq] at this; exact absurd this (by simp)

theorem dropSeekPhase_WInv : ∀ (n : Nat) (s : PrerecState) (ev bu : Nat), WInv s →
    WInv (dropSeekPhase n s ev bu).1 ∧ coreEq (dropSeekPhase n s ev bu).1 s ∧
    (dropSeekPhase n s ev bu).1.queue.Sublist s.queue := by
  intro n
  induction n with
  | zero => intro s ev bu h; exact ⟨h, coreEq_refl s, List.Sublist.refl _⟩
  | succ k ih =>
    intro s ev bu h
    unfold dropSeekPhase
    cases hq : s.queue with
    | nil => exact ⟨h, coreEq_refl s, by simp [hq]⟩
    | cons q rest =>
      dsimp only
      obtain ⟨hds, hdc⟩ := drop_last_item_sublist s
      rw [hq] at hds
      have hdw := drop_last_item_WInv h
      by_cases hf : q.payload.isFrame
      · rw [if_pos hf]
        by_cases hrem : q.keyframe = false ∨ q.gopId ≠ s.lastGopId
        · rw [if_pos hrem]
          obtain ⟨h1, h2, h3⟩ := ih (drop_last_item s) ev (bu + 1) hdw
          exact ⟨h1, coreEq_trans h2 hdc, h3.trans hds⟩
        · rw [if_neg hrem]
          refine ⟨h, coreEq_refl s, ?_⟩
          rw [hq]
      · rw [if_neg hf]
        obtain ⟨h1, h2, h3⟩ := ih (drop_last_item s) (ev + 1) bu hdw
        exact ⟨h1, coreEq_trans h2 hdc, h3.trans hds⟩

theorem dropEvictPhase_WInv : ∀ (n : Nat) (s : PrerecState) (ev bu : Nat), WInv s →
    WInv (dropEvictPhase n s ev bu).1 ∧ ctlEq (dropEvictPhase n s ev bu).1 s ∧
    (dropEvictPhase n s ev bu).1.currentGopId = s.currentGopId ∧
    (dropEvictPhase n s ev bu).1.stats = s.stats ∧
    (dropEvictPhase n s ev bu).1.queue.Sublist s.queue := by
  intro n
  induction n with
  | zero => intro s ev bu h; exact ⟨h, (coreEq_refl s).1, rfl, rfl, List.Sublist.refl _⟩
  | succ k ih =>
    intro s ev bu h
    unfold dropEvictPhase
    cases hq : s.queue with
    | nil => exact ⟨h, (coreEq_refl s).1, rfl, rfl, by simp [hq]⟩
    | cons q rest =>
      dsimp only
      obtain ⟨hds, hdc⟩ := drop_last_item_sublist s
      rw [hq] at hds
      have hdw := drop_last_item_WInv h
      by_cases hf : q.payload.isFrame
      · rw [if_pos hf]
        by_cases hgo : q.gopId = s.lastGopId
        · rw [if_pos hgo]
          obtain ⟨h1, h2, h3, h4, h5⟩ := ih (drop_last_item s) ev (bu + 1) hdw
          exact ⟨h1, ⟨h2.1.trans hdc.1.1, h2.2.1.trans hdc.1.2.1,
            h2.2.2.1.trans hdc.1.2.2.1, h2.2.2.2.1.trans hdc.1.2.2.2.1,
            h2.2.2.2.2.1.trans hdc.1.2.2.2.2.1,
            h2.2.2.2.2.2.1.trans hdc.1.2.2.2.2.2.1,
            h2.2.2.2.2.2.2.trans hdc.1.2.2.2.2.2.2⟩,
            h3.trans hdc.2.1, h4.trans hdc.2.2.2, h5.trans hds⟩
        · rw [if_neg hgo]
          have hqin : q ∈ frames s.queue := by
            rw [hq, frames_cons, if_pos hf]
            exact List.mem_cons_self q _
          refine ⟨⟨hq ▸ h.buffers_eq, h.gops_le q hqin, hq ▸ h.gops_le, ?_⟩,
            ⟨rfl, rfl, rfl, rfl, rfl, rfl, rfl⟩, rfl, rfl, List.Sublist.refl _⟩
          intro hm
          have := h.pt_empty hm
          rw [hq] at this
          exact this
      · rw [if_neg hf]
        obtain ⟨h1, h2, h3, h4, h5⟩ := ih (drop_last_item s) (ev + 1) bu hdw
        exact ⟨h1, ⟨h2.1.trans hdc.1.1, h2.2.1.trans hdc.1.2.1,
          h2.2.2.1.trans hdc.1.2.2.1, h2.2.2.2.1.trans hdc.1.2.2.2.1,
          h2.2.2.2.2.1.trans hdc.1.2.2.2.2.1,
          h2.2.2.2.2.2.1.trans hdc.1.2.2.2.2.2.1,
          h2.2.2.2.2.2.2.trans hdc.1.2.2.2.2.2.2⟩,
          h3.trans hdc.2.1, h4.trans hdc.2.2.2, h5.trans hds⟩

theorem locked_drop_WInv {s : PrerecState} (h : WInv s) :
    WInv (locked_drop s) ∧ ctlEq (locked_drop s) s ∧
    (locked_drop s).currentGopId = s.currentGopId := by
  unfold locked_drop
  dsimp only
  obtain ⟨h1, h2, _⟩ := dropSeekPhase_WInv s.queue.length s 0 0 h
  split
  · exact ⟨h1, h2.1, h2.2.1⟩
  · obtain ⟨h3, h4, h5, _⟩ := dropEvictPhase_WInv
      (dropSeekPhase s.queue.length s 0 0).1.queue.length
      (dropSeekPhase s.queue.length s 0 0).1
      (dropSeekPhase s.queue.length s 0 0).2.1
      (dropSeekPhase s.queue.length s 0 0).2.2 h1
    refine ⟨⟨h3.buffers_eq, h3.last_le, h3.gops_le, h3.pt_empty⟩, ?_, ?_⟩
    · exact ⟨h4.1.trans h2.1.1, h4.2.1.trans h2.1.2.1, h4.2.2.1.trans h2.1.2.2.1,
        h4.2.2.2.1.trans h2.1.2.2.2.1, h4.2.2.2.2.1.trans h2.1.2.2.2.2.1,
        h4.2.2.2.2.2.1.trans h2.1.2.2.2.2.2.1, h4.2.2.2.2.2.2.trans h2.1.2.2.2.2.2.2⟩
    · exact h5.trans h2.2.1

theorem pruneLoopFuel_pres (P : PrerecState → Prop)
    (hP : ∀ t, P t → gst_prerec_should_prune t = true → P (locked_drop t)) :
    ∀ (n : Nat) (s : PrerecState), P s → P (pruneLoopFuel n s) := by
  intro n
  induction n with
  | zero => intro s h; exact h
  | succ k ih =>
    intro s h
    by_cases hp : gst_prerec_should_prune s = true
    · rw [pruneLoopFuel_succ_prune s k hp]
      have hd := hP s h hp
      split
      · exact hd
      · split
        · exact hd
        · exact ih (locked_drop s) hd
    · have hp2 : gst_prerec_should_prune s = false := by
        cases hb : gst_prerec_should_prune s
        · rfl
        · exact absurd hb hp
      rw [pruneLoopFuel_not s hp2]
      exact h

theorem mem_frames_singleton {x y : QItem} (h : x ∈ frames [y]) : x = y := by
  rw [frames_cons] at h
  split at h
  · simpa [frames] using h
  · exact absurd h (by simp [frames])

theorem initState_WInv (m : Nat) (p : FlushOnEos) (t : Option String) :
    WInv (initState m p t) := by
  refine ⟨rfl, Nat.le_refl 0, ?_, fun _ => rfl⟩
  intro x hx
  exact absurd hx (by simp [frames, initState])

theorem locked_enqueue_buffer_WInv {s : PrerecState} (f : FrameInfo) (h : WInv s)
    (hm : s.mode = Mode.buffering) : WInv (locked_enqueue_buffer s f) := by
  obtain ⟨hQ, hCur, hLast, hBuf, hStats, hCtl⟩ := locked_enqueue_buffer_spec s f
  have hgid : s.currentGopId ≤ (if f.keyframe then s.currentGopId + 1 else s.currentGopId) := by
    split
    · exact Nat.le_succ _
    · exact Nat.le_refl _
  constructor
  · rw [hBuf, hQ, frames_append, h.buffers_eq]
    simp [frames_cons, Payload.isFrame, frames]
  · rw [hLast, hCur]
    split
    · exact Nat.le_refl _
    · exact h.last_le.trans hgid
  · intro x hx
    rw [hQ, frames_append] at hx
    rw [hCur]
    rcases List.mem_append.mp hx with hx1 | hx2
    · exact (h.gops_le x hx1).trans hgid
    · rw [mem_frames_singleton hx2]
  · intro hpt
    rw [hCtl.1, hm] at hpt
    exact absurd hpt (by simp)

theorem chain_state_WInv {s : PrerecState} (f : FrameInfo) (h : WInv s) :
    WInv (chain s f).2.1 := by
  unfold chain
  split
  · exact h
  split
  · exact h
  split
  · exact h
  cases hm : s.mode with
  | passThrough => exact h
  | buffering =>
    dsimp only
    have h1 := locked_enqueue_buffer_WInv f h hm
    have h2 := pruneLoopFuel_pres WInv (fun t ht _ => (locked_drop_WInv ht).1)
      (gst_prerec_queued_gops (locked_enqueue_buffer s f))
      (locked_enqueue_buffer s f) h1
    exact ⟨h2.buffers_eq, h2.last_le, h2.gops_le, h2.pt_empty⟩

theorem sink_event_eos_WInv {s : PrerecState} (h : WInv s) :
    WInv (sink_event_eos s).1 := by
  unfold sink_event_eos
  dsimp only
  split
  · obtain ⟨hpay, hq, hc, hb⟩ := drainAll_spec s
    refine ⟨?_, Nat.le_refl 0, ?_, fun _ => hq⟩
    · show (drainAll s).1.curLevel.buffers = _
      rw [hb, h.buffers_eq, hq]
      simp [frames]
    · intro x hx
      rw [hq] at hx
      exact absurd hx (by simp [frames])
  · split
    · obtain ⟨hq, hl, hc⟩ := locked_flush_fields s true
      refine ⟨?_, Nat.le_refl 0, ?_, fun _ => hq⟩
      · show (locked_flush s true).curLevel.buffers = _
        rw [hl, hq]
        rfl
      · intro x hx
        rw [hq] at hx
        exact absurd hx (by simp [frames])
    · exact h

theorem custom_downstream_WInv {s : PrerecState} (name : String) (h : WInv s) :
    WInv (sink_event_custom_downstream s name).1 := by
  unfold sink_event_custom_downstream
  dsimp only
  split
  · by_cases hmode : s.mode = Mode.buffering
    · rw [hmode]
      dsimp only
      obtain ⟨hpay, hq, hc, hb⟩ := drainAll_spec
        { s with stats := { s.stats with flush_count := s.stats.flush_count + 1 } }
      unfold flushTriggerDrain
      dsimp only
      refine ⟨?_, ?_, ?_, fun _ => hq⟩
      · show (drainAll _).1.curLevel.buffers = _
        rw [hb, hq]
        have hbe : s.curLevel.buffers = (frames s.queue).length := h.buffers_eq
        simp [frames, hbe]
      · show (drainAll _).1.lastGopId ≤ (drainAll _).1.currentGopId
        rw [hc.2.1, hc.2.2.1]
        exact h.last_le
      · intro x hx
        rw [hq] at hx
        exact absurd hx (by simp [frames])
    · have hpt : s.mode = Mode.passThrough := by
        cases hm2 : s.mode
        · exact absurd hm2 hmode
        · rfl
      rw [hpt]
      exact h
  · exact h

theorem sink_event_segment_WInv {s : PrerecState} (seg : Segment) (h : WInv s) :
    WInv (sink_event_segment s seg) := by
  unfold sink_event_segment
  split
  next hm =>
    obtain ⟨hq, hl, hc⟩ := locked_enqueue_segment_spec s seg
    constructor
    · rw [hq, frames_append, hl, h.buffers_eq]
      simp [frames, Payload.isFrame]
    · rw [hc.2.1, hc.2.2.1]
      exact h.last_le
    · intro x hx
      rw [hq, frames_append] at hx
      rw [hc.2.1]
      rcases List.mem_append.mp hx with hx1 | hx2
      · exact h.gops_le x hx1
      · exact absurd hx2 (by simp [frames, Payload.isFrame])
    · intro hpt
      rw [hc.1.1, hm] at hpt
      exact absurd hpt (by simp)
  next => exact h

theorem sink_event_gap_WInv {s : PrerecState} (ts : Nat) (dur : Option Nat)
    (h : WInv s) : WInv (sink_event_gap s ts dur) := by
  unfold sink_event_gap
  split
  next hm =>
    obtain ⟨hq, hb, hc⟩ := locked_enqueue_gap_spec s ts dur
    constructor
    · rw [hq, frames_append, hb, h.buffers_eq]
      simp [frames, Payload.isFrame]
    · rw [hc.2.1, hc.2.2.1]
      exact h.last_le
    · intro x hx
      rw [hq, frames_append] at hx
      rw [hc.2.1]
      rcases List.mem_append.mp hx with hx1 | hx2
      · exact h.gops_le x hx1
      · exact absurd hx2 (by simp [frames, Payload.isFrame])
    · intro hpt
      rw [hc.1.1, hm] at hpt
      exact absurd hpt (by simp)
  next => exact h

theorem sink_event_flush_start_WInv {s : PrerecState} (_h : WInv s) :
    WInv (sink_event_flush_start s) := by
  unfold sink_event_flush_start
  obtain ⟨hq, hl, hc⟩ := locked_flush_fields s true
  refine ⟨?_, Nat.le_refl 0, ?_, fun _ => hq⟩
  · show (locked_flush s true).curLevel.buffers = _
    rw [hl, hq]
    rfl
  · intro x hx
    rw [hq] at hx
    exact absurd hx (by simp [frames])

theorem sink_event_flush_stop_WInv {s : PrerecState} (rt : Bool) (h : WInv s) :
    WInv (sink_event_flush_stop s rt) := by
  unfold sink_event_flush_stop
  split
  · exact ⟨h.buffers_eq, h.last_le, h.gops_le, h.pt_empty⟩
  · exact ⟨h.buffers_eq, h.last_le, h.gops_le, h.pt_empty⟩

theorem src_event_arm_WInv {s : PrerecState} (h : WInv s) :
    WInv (src_event_arm s) := by
  unfold src_event_arm
  split
  next hm =>
    have hq := h.pt_empty hm
    refine ⟨?_, Nat.le_refl 0, ?_, fun _ => hq⟩
    · show (0 : Nat) = (frames s.queue).length
      rw [hq]
      rfl
    · intro x hx
      rw [hq] at hx
      exact absurd hx (by simp [frames])
  next => exact h

theorem deactivate_flush_WInv {s : PrerecState} (full : Bool) :
    WInv s → WInv (locked_flush { s with srcresult := FlowReturn.flushing } full) := by
  intro h
  obtain ⟨hq, hl, hc⟩ := locked_flush_fields { s with srcresult := FlowReturn.flushing } full
  refine ⟨?_, ?_, ?_, fun _ => hq⟩
  · show (locked_flush _ full).curLevel.buffers = _
    rw [hl, hq]
    rfl
  · rw [hc.2.1, hc.2.2.1]
    exact h.last_le
  · intro x hx
    rw [hq] at hx
    exact absurd hx (by simp [frames])

theorem Reach_WInv {s : PrerecState} (h : Reach s) : WInv s := by
  induction h with
  | init m p t => exact initState_WInv m p t
  | step i hr ih =>
    cases i with
    | buf f => exact chain_state_WInv f ih
    | eosEvent => exact sink_event_eos_WInv ih
    | segmentEvent seg => exact sink_event_segment_WInv seg ih
    | gapEvent ts dur => exact sink_event_gap_WInv ts dur ih
    | customDownstream name => exact custom_downstream_WInv name ih
    | flushStart => exact sink_event_flush_start_WInv ih
    | flushStop rt => exact sink_event_flush_stop_WInv rt ih
    | arm => exact src_event_arm_WInv ih
    | deactivateSrc => exact deactivate_flush_WInv false ih
    | deactivateSink => exact deactivate_flush_WInv true ih
    | activatePads => exact ⟨ih.buffers_eq, ih.last_le, ih.gops_le, ih.pt_empty⟩
    | setMaxTime secs => exact ⟨ih.buffers_eq, ih.last_le, ih.gops_le, ih.pt_empty⟩
    | setPolicy p => exact ⟨ih.buffers_eq, ih.last_le, ih.gops_le, ih.pt_empty⟩
    | setTrigger n => exact ⟨ih.buffers_eq, ih.last_le, ih.gops_le, ih.pt_empty⟩

theorem dropSeekPhase_sublist : ∀ (n : Nat) (s : PrerecState) (ev bu : Nat),
    (dropSeekPhase n s ev bu).1.queue.Sublist s.queue := by
  intro n
  induction n with
  | zero => intro s ev bu; exact List.Sublist.refl _
  | succ k ih =>
    intro s ev bu
    unfold dropSeekPhase
    cases hq : s.queue with
    | nil => simp [hq]
    | cons q rest =>
      dsimp only
      obtain ⟨hds, _⟩ := drop_last_item_sublist s
      rw [hq] at hds
      by_cases hf : q.payload.isFrame
      · rw [if_pos hf]
        by_cases hrem : q.keyframe = false ∨ q.gopId ≠ s.lastGopId
        · rw [if_pos hrem]
          exact (ih (drop_last_item s) ev (bu + 1)).trans hds
        · rw [if_neg hrem]
          show s.queue.Sublist (q :: rest)
          rw [hq]
      · rw [if_neg hf]
        exact (ih (drop_last_item s) (ev + 1) bu).trans hds

theorem dropEvictPhase_sublist : ∀ (n : Nat) (s : PrerecState) (ev bu : Nat),
    (dropEvictPhase n s ev bu).1.queue.Sublist s.queue := by
  intro n
  induction n with
  | zero => intro s ev bu; exact List.Sublist.refl _
  | succ k ih =>
    intro s ev bu
    unfold dropEvictPhase
    cases hq : s.queue with
    | nil => simp [hq]
    | cons q rest =>
      dsimp only
      obtain ⟨hds, _⟩ := drop_last_item_sublist s
      rw [hq] at hds
      by_cases hf : q.payload.isFrame
      · rw [if_pos hf]
        by_cases hgo : q.gopId = s.lastGopId
        · rw [if_pos hgo]
          exact (ih (drop_last_item s) ev (bu + 1)).trans hds
        · rw [if_neg hgo]
      · rw [if_neg hf]
        exact (ih (drop_last_item s) (ev + 1) bu).trans hds

theorem locked_drop_sublist (s : PrerecState) :
    (locked_drop s).queue.Sublist s.queue := by
  unfold locked_drop
  dsimp only
  split
  · exact dropSeekPhase_sublist s.queue.length s 0 0
  · exact (dropEvictPhase_sublist _ _ _ _).trans (dropSeekPhase_sublist s.queue.length s 0 0)

theorem flushTriggerDrain_spec (s : PrerecState) :
    (flushTriggerDrain s).2 = s.queue.map (fun x => x.payload) ∧
    (flushTriggerDrain s).1.queue = [] ∧
    (flushTriggerDrain s).1.mode = Mode.passThrough ∧
    (flushTriggerDrain s).1.stats.flush_count = s.stats.flush_count + 1 ∧
    (flushTriggerDrain s).1.stats.drops_gops = s.stats.drops_gops ∧
    (flushTriggerDrain s).1.stats.drops_buffers = s.stats.drops_buffers ∧
    (flushTriggerDrain s).1.stats.drops_events = s.stats.drops_events ∧
    (flushTriggerDrain s).1.stats.queued_gops_cur = s.stats.queued_gops_cur ∧
    (flushTriggerDrain s).1.stats.queued_buffers_cur = s.stats.queued_buffers_cur ∧
    (flushTriggerDrain s).1.stats.rearm_count = s.stats.rearm_count ∧
    (flushTriggerDrain s).1.currentGopId = s.currentGopId ∧
    (flushTriggerDrain s).1.lastGopId = s.lastGopId ∧
    (flushTriggerDrain s).1.flushOnEos = s.flushOnEos ∧
    (flushTriggerDrain s).1.flushTriggerName = s.flushTriggerName ∧
    (flushTriggerDrain s).1.maxSizeTime = s.maxSizeTime ∧
    (flushTriggerDrain s).1.eosSeen = s.eosSeen ∧
    (flushTriggerDrain s).1.srcresult = s.srcresult := by
  obtain ⟨hpay, hq, hc, hb⟩ := drainAll_spec
    { s with stats := { s.stats with flush_count := s.stats.flush_count + 1 } }
  unfold flushTriggerDrain
  dsimp only
  refine ⟨hpay, hq, rfl, ?_, ?_, ?_, ?_, ?_, ?_, ?_, hc.2.1, hc.2.2.1,
    hc.1.2.1, hc.1.2.2.1, hc.1.2.2.2.1, hc.1.2.2.2.2.1, hc.1.2.2.2.2.2.2⟩
  all_goals rw [hc.2.2.2]

theorem src_event_arm_pt (s : PrerecState) (hm : s.mode = Mode.passThrough) :
    src_event_arm s = { s with
      stats := { s.stats with rearm_count := s.stats.rearm_count + 1 },
      mode := Mode.buffering,
      currentGopId := 0, lastGopId := 0,
      curLevel := clear_level,
      sinkSegment := initSegment, srcSegment := initSegment,
      sinktime := none, srctime := none, sinkStartTime := none,
      sinkTainted := false, srcTainted := false } := by
  unfold src_event_arm
  rw [if_pos hm]

theorem src_event_arm_buffering (s : PrerecState) (hm : s.mode = Mode.buffering) :
    src_event_arm s = s := by
  unfold src_event_arm
  rw [if_neg]
  rw [hm]
  simp

theorem sink_event_eos_spec (s : PrerecState) :
    (sink_event_eos s).2.2 = true ∧
    (shouldDrainEos s = true →
      (sink_event_eos s).2.1 = s.queue.map (fun x => x.payload) ∧
      (sink_event_eos s).2.1.length = s.queue.length ∧
      (sink_event_eos s).1.queue = [] ∧
      (sink_event_eos s).1.currentGopId = 0 ∧
      (sink_event_eos s).1.lastGopId = 0 ∧
      (sink_event_eos s).1.stats.queued_gops_cur = 0 ∧
      (sink_event_eos s).1.stats.queued_buffers_cur = 0) ∧
    (shouldDrainEos s = false → s.queue ≠ [] →
      (sink_event_eos s).2.1 = [] ∧
      (sink_event_eos s).1.queue = [] ∧
      (sink_event_eos s).1.currentGopId = 0 ∧
      (sink_event_eos s).1.lastGopId = 0 ∧
      (sink_event_eos s).1.stats.queued_gops_cur = 0 ∧
      (sink_event_eos s).1.stats.queued_buffers_cur = 0) ∧
    (shouldDrainEos s = false → s.queue = [] →
      sink_event_eos s = (s, [], true)) := by
  obtain ⟨hpay, hq, hc, hb⟩ := drainAll_spec s
  unfold sink_event_eos
  by_cases hd : shouldDrainEos s = true
  · rw [if_pos hd]
    dsimp only
    refine ⟨rfl, ?_, ?_, ?_⟩
    · intro _
      exact ⟨hpay, by rw [hpay]; simp, hq, rfl, rfl, rfl, rfl⟩
    · intro hcontra
      exact absurd hd (by rw [hcontra]; simp)
    · intro hcontra
      exact absurd hd (by rw [hcontra]; simp)
  · have hd2 : shouldDrainEos s = false := by
      cases hb2 : shouldDrainEos s
      · rfl
      · exact absurd hb2 hd
    rw [if_neg (by rw [hd2]; simp : ¬shouldDrainEos s = true)]
    obtain ⟨hfq, hfl, hfc⟩ := locked_flush_fields s true
    by_cases hqe : s.queue = []
    · rw [if_neg (by rw [hqe]; simp : ¬s.queue ≠ [])]
      exact ⟨rfl, fun hcontra => absurd hcontra (by rw [hd2]; simp),
        fun _ hne => absurd hqe hne, fun _ _ => rfl⟩
    · rw [if_pos hqe]
      dsimp only
      exact ⟨rfl, fun hcontra => absurd hcontra (by rw [hd2]; simp),
        fun _ _ => ⟨rfl, hfq, rfl, rfl, rfl, rfl⟩,
        fun _ hcontra => absurd hcontra hqe⟩

theorem zeroTimeIfEmpty_zero (s : PrerecState)
    (h : (zeroTimeIfEmpty s).curLevel.buffers = 0) :
    (zeroTimeIfEmpty s).curLevel.time = 0 := by
  by_cases hb : s.curLevel.buffers = 0
  · unfold zeroTimeIfEmpty
    rw [if_pos hb]
  · unfold zeroTimeIfEmpty at h
    rw [if_neg hb] at h
    exact absurd h hb

/-- C1: in BUFFERING mode, a custom downstream event whose structure name
equals the configured flush-trigger name (default "prerecord-flush")
drains every queued item exactly once to the source pad in the original
enqueue (FIFO) order, increments `flush_count` by exactly one and switches
the mode to PASS_THROUGH, resetting nothing else (GOP id counters, all
other stats counters and the configuration are untouched); the same
trigger received in PASS_THROUGH emits nothing, leaves `flush_count`
unchanged and leaves the whole state unchanged. -/
theorem flush_trigger_drains_fifo_and_idempotent (s : PrerecState) (name : String)
    (hname : name = s.flushTriggerName.getD "prerecord-flush") :
    (s.mode = Mode.buffering →
      (sink_event_custom_downstream s name).2 = s.queue.map (fun x => x.payload) ∧
      (sink_event_custom_downstream s name).1.queue = [] ∧
      (sink_event_custom_downstream s name).1.mode = Mode.passThrough ∧
      (sink_event_custom_downstream s name).1.stats.flush_count =
        s.stats.flush_count + 1 ∧
      (sink_event_custom_downstream s name).1.stats.drops_gops = s.stats.drops_gops ∧
      (sink_event_custom_downstream s name).1.stats.drops_buffers =
        s.stats.drops_buffers ∧
      (sink_event_custom_downstream s name).1.stats.drops_events =
        s.stats.drops_events ∧
      (sink_event_custom_downstream s name).1.stats.queued_gops_cur =
        s.stats.queued_gops_cur ∧
      (sink_event_custom_downstream s name).1.stats.queued_buffers_cur =
        s.stats.queued_buffers_cur ∧
      (sink_event_custom_downstream s name).1.stats.rearm_count =
        s.stats.rearm_count ∧
      (sink_event_custom_downstream s name).1.currentGopId = s.currentGopId ∧
      (sink_event_custom_downstream s name).1.lastGopId = s.lastGopId ∧
      (sink_event_custom_downstream s name).1.flushOnEos = s.flushOnEos ∧
      (sink_event_custom_downstream s name).1.flushTriggerName =
        s.flushTriggerName ∧
      (sink_event_custom_downstream s name).1.maxSizeTime = s.maxSizeTime ∧
      (sink_event_custom_downstream s name).1.eosSeen = s.eosSeen ∧
      (sink_event_custom_downstream s name).1.srcresult = s.srcresult) ∧
    (s.mode = Mode.passThrough → sink_event_custom_downstream s name = (s, [])) := by
  unfold sink_event_custom_downstream
  dsimp only
  rw [if_pos hname]
  constructor
  · intro hm
    rw [hm]
    exact flushTriggerDrain_spec s
  · intro hm
    rw [hm]

/-- C1 witness: a concrete BUFFERING state holding one keyframe and one
delta frame, triggered with the default name. -/
theorem flush_trigger_witness :
    (sink_event_custom_downstream
        (runChain (initState 0 FlushOnEos.auto none)
          [{ pts := some 0, dur := some 1, size := 10, keyframe := true },
           { pts := some 1, dur := some 1, size := 10, keyframe := false }])
        "prerecord-flush").2 =
      [Payload.frame (some 0) (some 1) 10 true,
       Payload.frame (some 1) (some 1) 10 false] ∧
    (sink_event_custom_downstream
        (runChain (initState 0 FlushOnEos.auto none)
          [{ pts := some 0, dur := some 1, size := 10, keyframe := true },
           { pts := some 1, dur := some 1, size := 10, keyframe := false }])
        "prerecord-flush").1.mode = Mode.passThrough ∧
    (sink_event_custom_downstream
        (runChain (initState 0 FlushOnEos.auto none)
          [{ pts := some 0, dur := some 1, size := 10, keyframe := true },
           { pts := some 1, dur := some 1, size := 10, keyframe := false }])
        "prerecord-flush").1.stats.flush_count = 1 := by
  have h := (flush_trigger_drains_fifo_and_idempotent
    (runChain (initState 0 FlushOnEos.auto none)
      [{ pts := some 0, dur := some 1, size := 10, keyframe := true },
       { pts := some 1, dur := some 1, size := 10, keyframe := false }])
    "prerecord-flush" (by decide)).1 (by decide)
  refine ⟨?_, h.2.2.1, ?_⟩
  · rw [h.1]
    decide
  · rw [h.2.2.2.1]
    decide

/-- C3 counterexample: with policy NEVER, buffer two keyframes (GOP ids
reach 2), drain via the flush trigger (ids survive, mode PASS_THROUGH,
queue empty), then send EOS.  The discard branch is skipped because the
queue is already empty, so the GOP id counters are NOT reset to 0 as the
claim requires — `current_gop_id` stays 2. -/
theorem eos_reset_skip_counterexample :
    (sink_event_custom_downstream
        (runChain (initState 0 FlushOnEos.never none)
          [{ pts := some 0, dur := some 1, size := 10, keyframe := true },
           { pts := some 1, dur := some 1, size := 10, keyframe := true }])
        "prerecord-flush").1.mode = Mode.passThrough ∧
    (sink_event_custom_downstream
        (runChain (initState 0 FlushOnEos.never none)
          [{ pts := some 0, dur := some 1, size := 10, keyframe := true },
           { pts := some 1, dur := some 1, size := 10, keyframe := true }])
        "prerecord-flush").1.queue = [] ∧
    (sink_event_eos (sink_event_custom_downstream
        (runChain (initState 0 FlushOnEos.never none)
          [{ pts := some 0, dur := some 1, size := 10, keyframe := true },
           { pts := some 1, dur := some 1, size := 10, keyframe := true }])
        "prerecord-flush").1).1.currentGopId = 2 ∧
    ¬ (sink_event_eos (sink_event_custom_downstream
        (runChain (initState 0 FlushOnEos.never none)
          [{ pts := some 0, dur := some 1, size := 10, keyframe := true },
           { pts := some 1, dur := some 1, size := 10, keyframe := true }])
        "prerecord-flush").1).1.currentGopId = 0 := by
  decide

/-- C3 (amended): EOS first drains the queue to the source pad (policy
ALWAYS in both modes, AUTO only in PASS_THROUGH) or discards it without
pushing (NEVER in both modes, AUTO in BUFFERING), and always forwards the
EOS event itself; the number of items emitted before the forwarded EOS is
the prior queued item count on drain branches and 0 on discard branches.
The GOP id counters and the queued-stats snapshot are reset to zero on
every drain branch and on discard branches with a non-empty queue; a
discard branch with an already-empty queue leaves the whole state (the
counters included) unchanged. -/
theorem eos_policy_drain_or_discard (s : PrerecState) :
    (shouldDrainEos s =
      (decide (s.flushOnEos = FlushOnEos.always) ||
        (decide (s.flushOnEos = FlushOnEos.auto) &&
          decide (s.mode = Mode.passThrough)))) ∧
    (sink_event_eos s).2.2 = true ∧
    (shouldDrainEos s = true →
      (sink_event_eos s).2.1 = s.queue.map (fun x => x.payload) ∧
      (sink_event_eos s).2.1.length = s.queue.length ∧
      (sink_event_eos s).1.queue = [] ∧
      (sink_event_eos s).1.currentGopId = 0 ∧
      (sink_event_eos s).1.lastGopId = 0 ∧
      (sink_event_eos s).1.stats.queued_gops_cur = 0 ∧
      (sink_event_eos s).1.stats.queued_buffers_cur = 0) ∧
    (shouldDrainEos s = false → s.queue ≠ [] →
      (sink_event_eos s).2.1 = [] ∧
      (sink_event_eos s).1.queue = [] ∧
      (sink_event_eos s).1.currentGopId = 0 ∧
      (sink_event_eos s).1.lastGopId = 0 ∧
      (sink_event_eos s).1.stats.queued_gops_cur = 0 ∧
      (sink_event_eos s).1.stats.queued_buffers_cur = 0) ∧
    (shouldDrainEos s = false → s.queue = [] →
      sink_event_eos s = (s, [], true)) := by
  have h := sink_event_eos_spec s
  exact ⟨rfl, h.1, h.2.1, h.2.2.1, h.2.2.2⟩

/-- C3 witness: the amended theorem applied on the ALWAYS policy with one
queued keyframe (drain branch) shows one item drained and counters
reset. -/
theorem eos_policy_witness :
    (sink_event_eos (runChain (initState 0 FlushOnEos.always none)
        [{ pts := some 0, dur := some 1, size := 10, keyframe := true }])).2.1.length =
      1 ∧
    (sink_event_eos (runChain (initState 0 FlushOnEos.always none)
        [{ pts := some 0, dur := some 1, size := 10, keyframe := true }])).1.currentGopId =
      0 := by
  have h := (eos_policy_drain_or_discard
    (runChain (initState 0 FlushOnEos.always none)
      [{ pts := some 0, dur := some 1, size := 10, keyframe := true }])).2.2.1
    (by decide)
  refine ⟨?_, h.2.2.2.1⟩
  rw [h.2.1]
  decide

/-- C5: on a reachable state in PASS_THROUGH, the "prerecord-arm" custom
upstream event leaves an empty queue (the queue is already empty in
PASS_THROUGH; the handler itself does not touch it), resets the GOP id
counters to 0, resets both timeline sides to freshly initialized segments
with invalid stream times, clears the level, increments `rearm_count` by
exactly one and switches the mode to BUFFERING, so that afterwards
`queued_gop_count() = 0` and the buffered duration is 0; in BUFFERING the
event is a complete no-op. -/
theorem rearm_resets_from_passthrough (s : PrerecState) (h : Reach s) :
    (s.mode = Mode.passThrough →
      (src_event_arm s).queue = [] ∧
      (src_event_arm s).mode = Mode.buffering ∧
      (src_event_arm s).stats.rearm_count = s.stats.rearm_count + 1 ∧
      (src_event_arm s).currentGopId = 0 ∧
      (src_event_arm s).lastGopId = 0 ∧
      (src_event_arm s).curLevel = clear_level ∧
      (src_event_arm s).sinkSegment = initSegment ∧
      (src_event_arm s).srcSegment = initSegment ∧
      (src_event_arm s).sinktime = none ∧
      (src_event_arm s).srctime = none ∧
      (src_event_arm s).sinkStartTime = none ∧
      (src_event_arm s).sinkTainted = false ∧
      (src_event_arm s).srcTainted = false ∧
      gst_prerec_queued_gops (src_event_arm s) = 0 ∧
      (src_event_arm s).curLevel.time = 0 ∧
      (src_event_arm s).stats.flush_count = s.stats.flush_count ∧
      (src_event_arm s).stats.drops_gops = s.stats.drops_gops) ∧
    (s.mode = Mode.buffering → src_event_arm s = s) := by
  constructor
  · intro hm
    rw [src_event_arm_pt s hm]
    exact ⟨(Reach_WInv h).pt_empty hm, rfl, rfl, rfl, rfl, rfl, rfl, rfl, rfl, rfl,
      rfl, rfl, rfl, rfl, rfl, rfl, rfl⟩
  · exact src_event_arm_buffering s

/-- C5 witness: the element is reached in PASS_THROUGH by an (empty)
flush trigger from the initial state; rearm then takes it back to
BUFFERING with `rearm_count` 1. -/
theorem rearm_witness :
    (src_event_arm (stepState (initState 0 FlushOnEos.auto none)
        (Input.customDownstream "prerecord-flush"))).mode = Mode.buffering ∧
    (src_event_arm (stepState (initState 0 FlushOnEos.auto none)
        (Input.customDownstream "prerecord-flush"))).stats.rearm_count = 1 ∧
    (src_event_arm (stepState (initState 0 FlushOnEos.auto none)
        (Input.customDownstream "prerecord-flush"))).queue = [] := by
  have h := (rearm_resets_from_passthrough
    (stepState (initState 0 FlushOnEos.auto none)
      (Input.customDownstream "prerecord-flush"))
    (Reach.step (Input.customDownstream "prerecord-flush")
      (Reach.init 0 FlushOnEos.auto none))).1 (by decide)
  exact ⟨h.2.1, by rw [h.2.2.1]; decide, h.1⟩

/-- C6 counterexample: a GAP event (timestamp 0, duration 5) arriving in
BUFFERING with no frames queued advances the input position and sets
`cur_level.time = 5` while `cur_level.buffers = 0`, violating the claimed
Level invariant `buffer_count = 0 implies buffered_duration = 0`. -/
theorem level_time_counterexample :
    (sink_event_gap (initState 0 FlushOnEos.auto none) 0 (some 5)).curLevel.buffers =
      0 ∧
    (sink_event_gap (initState 0 FlushOnEos.auto none) 0 (some 5)).curLevel.time =
      5 := by
  decide

/-- C6 (amended): `buffer_count = 0 implies buffered_duration = 0` holds
in the initial state and is re-established by any frame dequeue that
brings `buffer_count` to 0 (the dequeue path zeroes the buffered time),
but it is not an invariant of every reachable state: gap (and segment
position) events applied while no frames are queued can leave
`buffered_duration > 0` with `buffer_count = 0`. -/
theorem level_time_zero_init_and_dequeue :
    (∀ (m : Nat) (p : FlushOnEos) (t : Option String),
      (initState m p t).curLevel.buffers = 0 ∧ (initState m p t).curLevel.time = 0) ∧
    (∀ (s : PrerecState) (q : QItem) (s1 : PrerecState),
      locked_dequeue s = some (q, s1) → q.payload.isFrame = true →
      s1.curLevel.buffers = 0 → s1.curLevel.time = 0) := by
  constructor
  · intro m p t
    exact ⟨rfl, rfl⟩
  · intro s q s1 he hf hb
    cases hq : s.queue with
    | nil =>
      rw [locked_dequeue_nil s hq] at he
      exact absurd he (by simp)
    | cons q2 rest =>
      unfold locked_dequeue at he
      rw [hq] at he
      dsimp only at he
      cases hp : q2.payload with
      | frame pts dur sz kf =>
        rw [hp] at he
        dsimp only at he
        have hqeq : q2 = q ∧ dequeueFrameStep { s with queue := rest } q2.size pts dur =
            s1 := by
          have := Option.some.inj he
          exact ⟨(Prod.mk.injEq _ _ _ _).mp this |>.1,
            (Prod.mk.injEq _ _ _ _).mp this |>.2⟩
        rw [← hqeq.2] at hb ⊢
        exact zeroTimeIfEmpty_zero _ hb
      | segmentEvent seg =>
        rw [hp] at he
        dsimp only at he
        have hqeq : q2 = q := by
          rcases hb2 : s.newsegAppliedToSrc with _ | _
          · rw [if_pos (by rw [hb2]; rfl : (!s.newsegAppliedToSrc) = true)] at he
            exact ((Prod.mk.injEq _ _ _ _).mp (Option.some.inj he)).1
          · rw [if_neg (by rw [hb2]; simp : ¬(!s.newsegAppliedToSrc) = true)] at he
            exact ((Prod.mk.injEq _ _ _ _).mp (Option.some.inj he)).1
        rw [← hqeq, hp] at hf
        exact absurd hf (by simp [Payload.isFrame])
      | gapEvent ts dur =>
        rw [hp] at he
        dsimp only at he
        have hqeq : q2 = q :=
          ((Prod.mk.injEq _ _ _ _).mp (Option.some.inj he)).1
        rw [← hqeq, hp] at hf
        exact absurd hf (by simp [Payload.isFrame])

/-- C6 witness: dequeuing the single queued frame of a concrete one-frame
state brings the buffer count to 0 and the buffered time to 0. -/
theorem level_time_dequeue_witness :
    (runChain (initState 0 FlushOnEos.auto none)
      [{ pts := some 0, dur := some 1, size := 10, keyframe := true }]).queue.length =
      1 ∧
    ∀ (q : QItem) (s1 : PrerecState),
      locked_dequeue (runChain (initState 0 FlushOnEos.auto none)
        [{ pts := some 0, dur := some 1, size := 10, keyframe := true }]) =
          some (q, s1) →
      s1.curLevel.time = 0 := by
  refine ⟨by decide, ?_⟩
  intro q s1 he
  have hf : q.payload.isFrame = true := by
    have hev : ∃ s2, locked_dequeue (runChain (initState 0 FlushOnEos.auto none)
        [{ pts := some 0, dur := some 1, size := 10, keyframe := true }]) =
        some ({ payload := Payload.frame (some 0) (some 1) 10 true, size := 10,
                keyframe := true, gopId := 1 }, s2) := by
      obtain ⟨s2, h2, _⟩ := locked_dequeue_cons
        (runChain (initState 0 FlushOnEos.auto none)
          [{ pts := some 0, dur := some 1, size := 10, keyframe := true }])
        { payload := Payload.frame (some 0) (some 1) 10 true, size := 10,
          keyframe := true, gopId := 1 } [] (by decide)
      exact ⟨s2, h2⟩
    obtain ⟨s2, h2⟩ := hev
    rw [h2] at he
    have := ((Prod.mk.injEq _ _ _ _).mp (Option.some.inj he)).1
    rw [← this]
    rfl
  have hb : s1.curLevel.buffers = 0 := by
    obtain ⟨s2, h2, _, _, hbuf⟩ := locked_dequeue_cons
      (runChain (initState 0 FlushOnEos.auto none)
        [{ pts := some 0, dur := some 1, size := 10, keyframe := true }])
      { payload := Payload.frame (some 0) (some 1) 10 true, size := 10,
        keyframe := true, gopId := 1 } [] (by decide)
    rw [h2] at he
    have hs : s2 = s1 :=
      ((Prod.mk.injEq _ _ _ _).mp (Option.some.inj he)).2
    rw [← hs, hbuf]
    decide
  exact level_time_zero_init_and_dequeue.2 _ q s1 he hf hb

/-- C7: on every reachable state, `gst_prerec_queued_gops` returns 0 when
the buffer count is 0 and `current_gop_id - last_gop_id + 1` otherwise
(on reachable states `last_gop_id` never exceeds `current_gop_id`, so the
defensive underflow branch never fires). -/
theorem queued_gops_formula (s : PrerecState) (h : Reach s) :
    gst_prerec_queued_gops s =
      (if s.curLevel.buffers = 0 then 0 else s.currentGopId - s.lastGopId + 1) := by
  have hle := (Reach_WInv h).last_le
  by_cases hb : s.curLevel.buffers = 0
  · simp [gst_prerec_queued_gops, hb]
  · simp [gst_prerec_queued_gops, hb, hle]

/-- C7 witness: the formula evaluated on the reachable state holding two
frames of one GOP (current 1, last 1, buffers 2) gives 1. -/
theorem queued_gops_formula_witness :
    gst_prerec_queued_gops (stepState (stepState (initState 0 FlushOnEos.auto none)
        (Input.buf { pts := some 0, dur := some 1, size := 10, keyframe := true }))
        (Input.buf { pts := some 1, dur := some 1, size := 10, keyframe := false })) =
      1 := by
  have h := queued_gops_formula
    (stepState (stepState (initState 0 FlushOnEos.auto none)
        (Input.buf { pts := some 0, dur := some 1, size := 10, keyframe := true }))
        (Input.buf { pts := some 1, dur := some 1, size := 10, keyframe := false }))
    (Reach.step (Input.buf { pts := some 1, dur := some 1, size := 10, keyframe := false })
      (Reach.step (Input.buf { pts := some 0, dur := some 1, size := 10, keyframe := true })
        (Reach.init 0 FlushOnEos.auto none)))
  rw [h]
  decide

/-- C8 counterexample: applying a SEGMENT event on the sink side CLEARS
the sink tainted ("needs recompute") flag instead of setting it — the
claim that `apply_segment` marks the side "needs recompute" is false. -/
theorem apply_segment_flag_counterexample :
    ({ initState 0 FlushOnEos.auto none with sinkTainted := true } :
      PrerecState).sinkTainted = true ∧
    (locked_apply_segment
      { initState 0 FlushOnEos.auto none with sinkTainted := true }
      { format := Format.other, start := 7, stop := some 9, time := 3,
        position := some 4 } true).sinkTainted = false := by
  decide

/-- C8 (amended): `locked_apply_segment` normalizes a non-time segment to
a degenerate closed time segment (format TIME, start 0, stop unknown,
segment time 0, position kept), stores a time segment unchanged, and in
every case CLEARS that side's needs-recompute (tainted) flag — the side's
running time is refreshed by later buffer/gap flows, not by the next
buffered-duration query. -/
theorem apply_segment_normalizes_and_clears_flag (s : PrerecState) (seg : Segment) :
    (seg.format ≠ Format.time →
      (locked_apply_segment s seg true).sinkSegment =
        { seg with format := Format.time, start := 0, stop := none, time := 0 } ∧
      (locked_apply_segment s seg false).srcSegment =
        { seg with format := Format.time, start := 0, stop := none, time := 0 }) ∧
    (seg.format = Format.time →
      (locked_apply_segment s seg true).sinkSegment = seg ∧
      (locked_apply_segment s seg false).srcSegment = seg) ∧
    (locked_apply_segment s seg true).sinkTainted = false ∧
    (locked_apply_segment s seg false).srcTainted = false := by
  refine ⟨?_, ?_, rfl, rfl⟩
  · intro hne
    unfold locked_apply_segment normalizeSegment
    rw [if_pos hne]
    exact ⟨rfl, rfl⟩
  · intro heq
    unfold locked_apply_segment normalizeSegment
    have hnn : ¬ (seg.format ≠ Format.time) := by simp [heq]
    rw [if_neg hnn]
    exact ⟨rfl, rfl⟩

/-- C8 witness: the amended theorem applied to a concrete non-time
segment shows the normalized result and the cleared flag. -/
theorem apply_segment_witness :
    (locked_apply_segment (initState 0 FlushOnEos.auto none)
      { format := Format.other, start := 7, stop := some 9, time := 3,
        position := some 4 } true).sinkSegment =
      { format := Format.time, start := 0, stop := none, time := 0,
        position := some 4 } ∧
    (locked_apply_segment (initState 0 FlushOnEos.auto none)
      { format := Format.other, start := 7, stop := some 9, time := 3,
        position := some 4 } true).sinkTainted = false := by
  have h := apply_segment_normalizes_and_clears_flag (initState 0 FlushOnEos.auto none)
    { format := Format.other, start := 7, stop := some 9, time := 3,
      position := some 4 }
  exact ⟨(h.1 (by decide)).1, h.2.2.1⟩

/-- C9: the code never refuses a frame after EOS.  `loop->eos` is checked
by the chain function (`if (loop->eos) goto out_eos` returning
GST_FLOW_EOS) but no code path ever sets it TRUE — the EOS branch of the
sink event handler forgets to — so a buffer submitted right after EOS on
a fresh element is still accepted with GST_FLOW_OK and enqueued, where
the documented taxonomy ("End-of-stream-reached: further frame
submissions after end-of-stream is observed are refused with a terminal
status") requires a refusal. -/
theorem chain_accepts_after_eos :
    (sink_event_eos (initState 0 FlushOnEos.auto none)).1.eosSeen = false ∧
    (chain (sink_event_eos (initState 0 FlushOnEos.auto none)).1
      { pts := some 0, dur := some 1, size := 10, keyframe := true }).1 =
      FlowReturn.ok ∧
    (chain (sink_event_eos (initState 0 FlushOnEos.auto none)).1
      { pts := some 0, dur := some 1, size := 10, keyframe := true }).2.1.queue.length =
      1 := by
  decide

/-- C10: the eviction loop of the chain handler terminates on every
state: running `pruneLoopFuel` with any fuel at least the current queued
GOP count gives the same settled state as fuel exactly that count (each
continuing iteration strictly decreases the queued GOP count, and the
at-most-2 / no-progress guards stop everything else), and a single
`locked_drop` call never grows the queue (its result queue is a sublist
of the input queue). -/
theorem prune_loop_terminates (s : PrerecState) (n : Nat)
    (h : gst_prerec_queued_gops s ≤ n) :
    pruneLoopFuel n s = pruneLoopFuel (gst_prerec_queued_gops s) s ∧
    ∀ t : PrerecState, (locked_drop t).queue.Sublist t.queue :=
  ⟨pruneLoopFuel_stable n s h, locked_drop_sublist⟩

/-- C10 witness: on the concrete two-GOP state the loop with generous
fuel equals the loop with fuel 2 (= the queued GOP count). -/
theorem prune_loop_terminates_witness :
    pruneLoopFuel 10 (runChain (initState 0 FlushOnEos.auto none)
        [{ pts := some 0, dur := some 1, size := 10, keyframe := true },
         { pts := some 1, dur := some 1, size := 10, keyframe := true }]) =
      pruneLoopFuel 2 (runChain (initState 0 FlushOnEos.auto none)
        [{ pts := some 0, dur := some 1, size := 10, keyframe := true },
         { pts := some 1, dur := some 1, size := 10, keyframe := true }]) := by
  have h := (prune_loop_terminates (runChain (initState 0 FlushOnEos.auto none)
    [{ pts := some 0, dur := some 1, size := 10, keyframe := true },
     { pts := some 1, dur := some 1, size := 10, keyframe := true }]) 10 (by decide)).1
  rw [h]
  rfl

/-- C4 counterexample: a SEGMENT event arriving on a fresh element (queue
empty, BUFFERING) is enqueued, so the queue becomes non-empty with a
ControlEvent — not a keyframe Frame — at its head. -/
theorem head_keyframe_counterexample :
    (sink_event_segment (initState 0 FlushOnEos.auto none) initSegment).queue.map
      (fun q => q.payload.isFrame) = [false] := by
  decide

theorem mem_frames_isFrame {q : List QItem} {x : QItem} (h : x ∈ frames q) :
    x.payload.isFrame = true := by
  unfold frames at h
  exact (List.mem_filter.mp h).2

theorem frames_event_nil (x : QItem) (h : x.payload.isFrame = false) :
    frames [x] = [] := by
  rw [frames_cons, h]
  simp [frames]

theorem frames_append_events (evs l : List QItem)
    (h : ∀ x ∈ evs, x.payload.isFrame = false) : frames (evs ++ l) = frames l := by
  induction evs with
  | nil => rfl
  | cons e tl ih =>
    rw [List.cons_append, frames_cons, h e (List.mem_cons_self e tl)]
    simp only [Bool.false_eq_true, if_false]
    exact ih (fun x hx => h x (List.mem_cons_of_mem e hx))

theorem exists_first_frame : ∀ (q : List QItem) (f : QItem) (fr : List QItem),
    frames q = f :: fr →
    ∃ evs rest, q = evs ++ f :: rest ∧ (∀ x ∈ evs, x.payload.isFrame = false) ∧
      frames rest = fr := by
  intro q
  induction q with
  | nil => intro f fr h; exact absurd h (by simp [frames])
  | cons a tl ih =>
    intro f fr h
    rw [frames_cons] at h
    by_cases hf : a.payload.isFrame
    · rw [if_pos hf] at h
      refine ⟨[], tl, by simp [(List.cons.injEq _ _ _ _).mp h |>.1], by simp, ?_⟩
      exact ((List.cons.injEq _ _ _ _).mp h).2
    · rw [if_neg hf] at h
      obtain ⟨evs, rest, h1, h2, h3⟩ := ih f fr h
      refine ⟨a :: evs, rest, by rw [List.cons_append, h1], ?_, h3⟩
      intro x hx
      rcases List.mem_cons.mp hx with hx1 | hx2
      · rw [hx1]
        cases hb : a.payload.isFrame
        · rfl
        · exact absurd hb hf
      · exact h2 x hx2

theorem lastGopOf_append (g : Nat) (l : List QItem) (x : QItem) :
    lastGopOf g (l ++ [x]) = x.gopId := by
  induction l generalizing g with
  | nil => rfl
  | cons b tl ih => exact ih b.gopId

theorem chainFrom_append {g : Nat} {l : List QItem} {x : QItem}
    (hc : chainFrom g l)
    (hrel : x.gopId = lastGopOf g l ∨
      (x.gopId = lastGopOf g l + 1 ∧ x.keyframe = true)) :
    chainFrom g (l ++ [x]) := by
  induction l generalizing g with
  | nil => exact ⟨hrel, trivial⟩
  | cons b tl ih =>
    obtain ⟨hb, htl⟩ := hc
    exact ⟨hb, ih htl hrel⟩

theorem seek_reaches_frame : ∀ (evs : List QItem) (n : Nat) (s : PrerecState)
    (ev bu : Nat) (f : QItem) (rest : List QItem),
    s.queue = evs ++ f :: rest → (∀ x ∈ evs, x.payload.isFrame = false) →
    f.payload.isFrame = true → f.keyframe = true → f.gopId = s.lastGopId →
    evs.length < n →
    ∃ s1, dropSeekPhase n s ev bu = (s1, ev + evs.length, bu) ∧
      s1.queue = f :: rest ∧ coreEq s1 s ∧
      s1.curLevel.buffers = s.curLevel.buffers := by
  intro evs
  induction evs with
  | nil =>
    intro n s ev bu f rest hq hevs hf hkf hgop hn
    simp only [List.nil_append] at hq
    obtain ⟨k, hk⟩ : ∃ k, n = k + 1 := ⟨n - 1, by omega⟩
    subst hk
    unfold dropSeekPhase
    rw [hq]
    dsimp only
    rw [if_pos hf]
    rw [if_neg (by simp [hkf, hgop] : ¬(f.keyframe = false ∨ f.gopId ≠ s.lastGopId))]
    exact ⟨s, by simp, hq, coreEq_refl s, rfl⟩
  | cons e tl ih =>
    intro n s ev bu f rest hq hevs hf hkf hgop hn
    obtain ⟨k, hk⟩ : ∃ k, n = k + 1 := ⟨n - 1, by omega⟩
    subst hk
    unfold dropSeekPhase
    rw [hq, List.cons_append]
    dsimp only
    have hef : e.payload.isFrame = false := hevs e (List.mem_cons_self e tl)
    rw [if_neg (by rw [hef]; simp : ¬e.payload.isFrame = true)]
    obtain ⟨hdq, hdc, hdb⟩ := drop_last_item_cons s e (tl ++ f :: rest)
      (by rw [hq]; rfl)
    have hgop2 : f.gopId = (drop_last_item s).lastGopId := by
      rw [hdc.2.2.1]
      exact hgop
    obtain ⟨s1, hrec, hq1, hc1, hb1⟩ := ih k (drop_last_item s) (ev + 1) bu f rest
      hdq (fun x hx => hevs x (List.mem_cons_of_mem e hx)) hf hkf hgop2
      (by simp only [List.length_cons] at hn; omega)
    refine ⟨s1, ?_, hq1, coreEq_trans hc1 hdc, ?_⟩
    · rw [hrec]
      have : ev + 1 + tl.length = ev + (e :: tl).length := by
        simp only [List.length_cons]
        omega
      rw [this]
    · rw [hb1, hdb]
      rw [if_neg (by rw [hef]; simp : ¬e.payload.isFrame = true)]

theorem evict_phase_spec : ∀ (n : Nat) (s : PrerecState) (ev bu : Nat),
    s.queue.length ≤ n →
    chainFrom s.lastGopId (frames s.queue) →
    lastGopOf s.lastGopId (frames s.queue) = s.currentGopId →
    s.lastGopId < s.currentGopId →
    s.curLevel.buffers = (frames s.queue).length →
    ∃ s1 ev2 bu2, dropEvictPhase n s ev bu = (s1, ev2, bu2) ∧
      s1.lastGopId = s.lastGopId + 1 ∧ s1.currentGopId = s.currentGopId ∧
      framesOk (s.lastGopId + 1) s.currentGopId (frames s1.queue) ∧
      s1.curLevel.buffers = (frames s1.queue).length ∧
      frames s1.queue ≠ [] ∧ ctlEq s1 s ∧ s1.stats = s.stats := by
  intro n
  induction n with
  | zero =>
    intro s ev bu hlen hchain hlast hlt hbeq
    have hqnil : s.queue = [] := List.eq_nil_of_length_eq_zero (Nat.le_zero.mp hlen)
    rw [hqnil] at hlast
    exact absurd hlast (by unfold frames lastGopOf; simp; omega)
  | succ k ih =>
    intro s ev bu hlen hchain hlast hlt hbeq
    cases hq : s.queue with
    | nil =>
      rw [hq] at hlast
      exact absurd hlast (by unfold frames lastGopOf; simp; omega)
    | cons q rest =>
      unfold dropEvictPhase
      rw [hq]
      dsimp only
      rw [hq, frames_cons] at hchain hlast hbeq
      by_cases hf : q.payload.isFrame
      · rw [if_pos hf] at hchain hlast hbeq
        obtain ⟨hrel, hchain2⟩ := hchain
        rcases hrel with hstay | hnew
        · rw [if_pos hf, if_pos hstay]
          obtain ⟨hdq, hdc, hdb⟩ := drop_last_item_cons s q rest hq
          have hlen2 : (drop_last_item s).queue.length ≤ k := by
            rw [hdq]
            rw [hq] at hlen
            simp only [List.length_cons] at hlen
            omega
          have hchain3 : chainFrom (drop_last_item s).lastGopId
              (frames (drop_last_item s).queue) := by
            rw [hdq, hdc.2.2.1, ← hstay]
            exact hchain2
          have hlast3 : lastGopOf (drop_last_item s).lastGopId
              (frames (drop_last_item s).queue) = (drop_last_item s).currentGopId := by
            rw [hdq, hdc.2.2.1, hdc.2.1, ← hstay]
            exact hlast
          have hlt3 : (drop_last_item s).lastGopId < (drop_last_item s).currentGopId := by
            rw [hdc.2.2.1, hdc.2.1]
            exact hlt
          have hbeq3 : (drop_last_item s).curLevel.buffers =
              (frames (drop_last_item s).queue).length := by
            rw [hdq, hdb, hbeq]
            rw [if_pos hf]
            simp
          obtain ⟨s1, ev2, bu2, hres, hl1, hc1, hfok, hbe1, hne1, hctl1, hst1⟩ :=
            ih (drop_last_item s) ev (bu + 1) hlen2 hchain3 hlast3 hlt3 hbeq3
          refine ⟨s1, ev2, bu2, hres, ?_, ?_, ?_, hbe1, hne1, ?_, ?_⟩
          · rw [hl1, hdc.2.2.1]
          · rw [hc1, hdc.2.1]
          · rw [hdc.2.2.1, hdc.2.1] at hfok
            exact hfok
          · exact ⟨hctl1.1.trans hdc.1.1, hctl1.2.1.trans hdc.1.2.1,
              hctl1.2.2.1.trans hdc.1.2.2.1, hctl1.2.2.2.1.trans hdc.1.2.2.2.1,
              hctl1.2.2.2.2.1.trans hdc.1.2.2.2.2.1,
              hctl1.2.2.2.2.2.1.trans hdc.1.2.2.2.2.2.1,
              hctl1.2.2.2.2.2.2.trans hdc.1.2.2.2.2.2.2⟩
          · rw [hst1, hdc.2.2.2]
        · rw [if_pos hf, if_neg (by rw [hnew.1]; omega : ¬q.gopId = s.lastGopId)]
          refine ⟨{ s with queue := q :: rest, lastGopId := q.gopId }, ev, bu, rfl,
            ?_, rfl, ?_, ?_, ?_, ⟨rfl, rfl, rfl, rfl, rfl, rfl, rfl⟩, rfl⟩
          · exact hnew.1
          · show framesOk (s.lastGopId + 1) s.currentGopId (frames (q :: rest))
            rw [frames_cons, if_pos hf]
            refine ⟨hnew.1, hnew.2, hnew.1 ▸ hchain2, ?_⟩
            show lastGopOf q.gopId (frames rest) = s.currentGopId
            exact hlast
          · show s.curLevel.buffers = (frames (q :: rest)).length
            rw [frames_cons, if_pos hf]
            exact hbeq
          · show frames (q :: rest) ≠ []
            rw [frames_cons, if_pos hf]
            simp
      · rw [if_neg hf] at hchain hlast hbeq
        rw [if_neg hf]
        obtain ⟨hdq, hdc, hdb⟩ := drop_last_item_cons s q rest hq
        have hlen2 : (drop_last_item s).queue.length ≤ k := by
          rw [hdq]
          rw [hq] at hlen
          simp only [List.length_cons] at hlen
          omega
        have hchain3 : chainFrom (drop_last_item s).lastGopId
            (frames (drop_last_item s).queue) := by
          rw [hdq, hdc.2.2.1]
          exact hchain
        have hlast3 : lastGopOf (drop_last_item s).lastGopId
            (frames (drop_last_item s).queue) = (drop_last_item s).currentGopId := by
          rw [hdq, hdc.2.2.1, hdc.2.1]
          exact hlast
        have hlt3 : (drop_last_item s).lastGopId < (drop_last_item s).currentGopId := by
          rw [hdc.2.2.1, hdc.2.1]
          exact hlt
        have hbeq3 : (drop_last_item s).curLevel.buffers =
            (frames (drop_last_item s).queue).length := by
          rw [hdq, hdb, hbeq]
          rw [if_neg hf]
        obtain ⟨s1, ev2, bu2, hres, hl1, hc1, hfok, hbe1, hne1, hctl1, hst1⟩ :=
          ih (drop_last_item s) (ev + 1) bu hlen2 hchain3 hlast3 hlt3 hbeq3
        refine ⟨s1, ev2, bu2, hres, ?_, ?_, ?_, hbe1, hne1, ?_, ?_⟩
        · rw [hl1, hdc.2.2.1]
        · rw [hc1, hdc.2.1]
        · rw [hdc.2.2.1, hdc.2.1] at hfok
          exact hfok
        · exact ⟨hctl1.1.trans hdc.1.1, hctl1.2.1.trans hdc.1.2.1,
            hctl1.2.2.1.trans hdc.1.2.2.1, hctl1.2.2.2.1.trans hdc.1.2.2.2.1,
            hctl1.2.2.2.2.1.trans hdc.1.2.2.2.2.1,
            hctl1.2.2.2.2.2.1.trans hdc.1.2.2.2.2.2.1,
            hctl1.2.2.2.2.2.2.trans hdc.1.2.2.2.2.2.2⟩
        · rw [hst1, hdc.2.2.2]

theorem queued_gops_pos_facts {s : PrerecState}
    (hg : 2 < gst_prerec_queued_gops s) :
    s.curLevel.buffers ≠ 0 ∧ s.lastGopId + 2 ≤ s.currentGopId := by
  unfold gst_prerec_queued_gops at hg
  by_cases hb : s.curLevel.buffers = 0
  · rw [if_pos hb] at hg
    omega
  · rw [if_neg hb] at hg
    by_cases hle : s.lastGopId ≤ s.currentGopId
    · rw [if_pos hle] at hg
      exact ⟨hb, by omega⟩
    · rw [if_neg hle] at hg
      omega

theorem locked_drop_SInv {s : PrerecState} (hs : SInv s)
    (hg : 2 < gst_prerec_queued_gops s) :
    SInv (locked_drop s) ∧
    (locked_drop s).currentGopId = s.currentGopId ∧
    ((locked_drop s).lastGopId = s.lastGopId ∨
      (locked_drop s).lastGopId = s.lastGopId + 1) ∧
    (locked_drop s).curLevel.buffers ≠ 0 ∧
    ctlEq (locked_drop s) s := by
  obtain ⟨hbuf, hids⟩ := queued_gops_pos_facts hg
  have hfr : ∃ f fr, frames s.queue = f :: fr := by
    cases hfq : frames s.queue with
    | nil =>
      rw [hs.buffers_eq, hfq] at hbuf
      exact absurd rfl hbuf
    | cons f fr => exact ⟨f, fr, rfl⟩
  obtain ⟨f, fr, hfq⟩ := hfr
  obtain ⟨evs, rest, hsplit, hevs, hfr2⟩ := exists_first_frame s.queue f fr hfq
  have hfok := hs.fok
  rw [hfq] at hfok
  have hfisf : f.payload.isFrame = true :=
    mem_frames_isFrame (by rw [hfq]; exact List.mem_cons_self f fr)
  have hframes_eq : frames s.queue = f :: frames rest := by
    rw [hsplit, frames_append_events evs _ hevs, frames_cons, if_pos hfisf, hfr2]
  have hqne : s.queue ≠ [] := by
    rw [hsplit]
    simp
  obtain ⟨s1, hseek, hq1, hc1, hb1⟩ := seek_reaches_frame evs s.queue.length s 0 0
    f rest hsplit hevs hfisf hfok.2.1 hfok.1
    (by rw [hsplit]; simp [List.length_append])
  have hframes1 : frames s1.queue = f :: frames rest := by
    rw [hq1, frames_cons, if_pos hfisf]
  have hbeq1 : s1.curLevel.buffers = (frames s1.queue).length := by
    rw [hb1, hframes1, hs.buffers_eq, hframes_eq]
  unfold locked_drop
  dsimp only
  rw [hseek]
  dsimp only
  split
  · refine ⟨⟨hbeq1, ?_, ?_, ?_⟩, hc1.2.1, Or.inl hc1.2.2.1, ?_, hc1.1⟩
    · rw [hc1.2.1, hc1.2.2.1]
      exact hs.last_le
    · rw [hc1.2.1, hc1.2.2.1, hframes1, ← hframes_eq]
      exact hs.fok
    · intro hm
      rw [hc1.1.1] at hm
      exact absurd (hs.pt_empty hm) hqne
    · rw [hb1]
      exact hbuf
  · have hchainS1 : chainFrom s1.lastGopId (frames s1.queue) := by
      rw [hc1.2.2.1, hframes1]
      refine ⟨Or.inl hfok.1, ?_⟩
      rw [hfr2]
      exact hfok.2.2.1
    have hlastS1 : lastGopOf s1.lastGopId (frames s1.queue) = s1.currentGopId := by
      rw [hc1.2.2.1, hc1.2.1, hframes1]
      show lastGopOf f.gopId (frames rest) = s.currentGopId
      rw [hfr2]
      exact hfok.2.2.2
    have hltS1 : s1.lastGopId < s1.currentGopId := by
      rw [hc1.2.2.1, hc1.2.1]
      omega
    obtain ⟨s2, ev2, bu2, hres, hl2, hc2, hfok2, hbe2, hne2, hctl2, hst2⟩ :=
      evict_phase_spec s1.queue.length s1 (0 + evs.length) 0 (Nat.le_refl _)
        hchainS1 hlastS1 hltS1 hbeq1
    rw [hres]
    dsimp only
    refine ⟨⟨hbe2, ?_, ?_, ?_⟩, ?_, ?_, ?_, ?_⟩
    · show s2.lastGopId ≤ s2.currentGopId
      rw [hl2, hc2, hc1.2.2.1, hc1.2.1]
      omega
    · show framesOk s2.lastGopId s2.currentGopId (frames s2.queue)
      rw [hl2, hc2]
      exact hfok2
    · intro hm
      have hm2 : s2.mode = Mode.passThrough := hm
      rw [hctl2.1, hc1.1.1] at hm2
      exact absurd (hs.pt_empty hm2) hqne
    · show s2.currentGopId = s.currentGopId
      rw [hc2, hc1.2.1]
    · refine Or.inr ?_
      show s2.lastGopId = s.lastGopId + 1
      rw [hl2, hc1.2.2.1]
    · show s2.curLevel.buffers ≠ 0
      rw [hbe2]
      exact fun h => hne2 (List.eq_nil_of_length_eq_zero h)
    · exact ⟨hctl2.1.trans hc1.1.1, hctl2.2.1.trans hc1.1.2.1,
        hctl2.2.2.1.trans hc1.1.2.2.1, hctl2.2.2.2.1.trans hc1.1.2.2.2.1,
        hctl2.2.2.2.2.1.trans hc1.1.2.2.2.2.1,
        hctl2.2.2.2.2.2.1.trans hc1.1.2.2.2.2.2.1,
        hctl2.2.2.2.2.2.2.trans hc1.1.2.2.2.2.2.2⟩

theorem initState_SInv (m : Nat) (p : FlushOnEos) (t : Option String) :
    SInv (initState m p t) :=
  ⟨rfl, Nat.le_refl 0, trivial, fun _ => rfl⟩

theorem locked_enqueue_buffer_SInv {s : PrerecState} (f : FrameInfo) (h : SInv s)
    (hm : s.mode = Mode.buffering)
    (hcon : s.curLevel.buffers = 0 → f.keyframe = true) :
    SInv (locked_enqueue_buffer s f) := by
  obtain ⟨hQ, hCur, hLast, hBuf, hStats, hCtl⟩ := locked_enqueue_buffer_spec s f
  have hfq2 : frames (locked_enqueue_buffer s f).queue = frames s.queue ++
      [{ payload := Payload.frame f.pts f.dur f.size f.keyframe, size := f.size,
         keyframe := f.keyframe,
         gopId := if f.keyframe then s.currentGopId + 1 else s.currentGopId }] := by
    rw [hQ, frames_append]
    simp [frames, Payload.isFrame]
  by_cases hb : s.curLevel.buffers = 0
  · have hkf : f.keyframe = true := hcon hb
    have hfe : frames s.queue = [] := List.eq_nil_of_length_eq_zero
      (by rw [← h.buffers_eq]; exact hb)
    refine ⟨?_, ?_, ?_, ?_⟩
    · rw [hBuf, hfq2, h.buffers_eq]
      simp
    · rw [hLast, hCur, if_pos (Or.inr hb)]
    · rw [hfq2, hfe, hLast, hCur, if_pos (Or.inr hb), hkf]
      exact ⟨rfl, rfl, trivial, rfl⟩
    · intro hpt
      rw [hCtl.1, hm] at hpt
      exact absurd hpt (by simp)
  · have hfne : frames s.queue ≠ [] := by
      intro hc
      rw [h.buffers_eq, hc] at hb
      exact hb rfl
    obtain ⟨b, l, hbl⟩ : ∃ b l, frames s.queue = b :: l := by
      cases hcc : frames s.queue with
      | nil => exact absurd hcc hfne
      | cons b l => exact ⟨b, l, rfl⟩
    have hfok := h.fok
    rw [hbl] at hfok
    obtain ⟨hbg, hbk, hch, hlg⟩ := hfok
    have hqne : s.queue.length ≠ 0 := by
      intro h0
      rw [List.eq_nil_of_length_eq_zero h0] at hbl
      simp [frames] at hbl
    have hncond : ¬(s.queue.length = 0 ∨ s.curLevel.buffers = 0) :=
      fun hc => hc.elim hqne hb
    refine ⟨?_, ?_, ?_, ?_⟩
    · rw [hBuf, hfq2, h.buffers_eq]
      simp
    · rw [hLast, hCur, if_neg hncond]
      refine h.last_le.trans ?_
      split
      · exact Nat.le_succ _
      · exact Nat.le_refl _
    · rw [hfq2, hbl, hLast, hCur, if_neg hncond, List.cons_append]
      refine ⟨hbg, hbk, ?_, ?_⟩
      · refine chainFrom_append hch ?_
        rw [hlg]
        cases hk : f.keyframe with
        | false => left; simp [hk]
        | true => right; exact ⟨by simp [hk], by simp [hk]⟩
      · rw [lastGopOf_append]
    · intro hpt
      rw [hCtl.1, hm] at hpt
      exact absurd hpt (by simp)

theorem chain_state_SInv {s : PrerecState} (f : FrameInfo) (h : SInv s)
    (hcon : s.curLevel.buffers = 0 → f.keyframe = true) :
    SInv (chain s f).2.1 := by
  unfold chain
  split
  · exact h
  split
  · exact h
  split
  · exact h
  cases hm : s.mode with
  | passThrough => exact h
  | buffering =>
    dsimp only
    have h1 := locked_enqueue_buffer_SInv f h hm hcon
    have h2 := pruneLoopFuel_pres SInv
      (fun t ht hsp => (locked_drop_SInv ht (should_prune_gops t hsp)).1)
      (gst_prerec_queued_gops (locked_enqueue_buffer s f))
      (locked_enqueue_buffer s f) h1
    exact ⟨h2.buffers_eq, h2.last_le, h2.fok, h2.pt_empty⟩

theorem sink_event_eos_SInv {s : PrerecState} (h : SInv s) :
    SInv (sink_event_eos s).1 := by
  unfold sink_event_eos
  dsimp only
  split
  · obtain ⟨hpay, hq, hc, hb⟩ := drainAll_spec s
    refine ⟨?_, Nat.le_refl 0, ?_, fun _ => hq⟩
    · show (drainAll s).1.curLevel.buffers = _
      rw [hb, h.buffers_eq, hq]
      simp [frames]
    · show framesOk 0 0 (frames (drainAll s).1.queue)
      rw [hq]
      trivial
  · split
    · obtain ⟨hq, hl, hc⟩ := locked_flush_fields s true
      refine ⟨?_, Nat.le_refl 0, ?_, fun _ => hq⟩
      · show (locked_flush s true).curLevel.buffers = _
        rw [hl, hq]
        rfl
      · show framesOk 0 0 (frames (locked_flush s true).queue)
        rw [hq]
        trivial
    · exact h

theorem custom_downstream_SInv {s : PrerecState} (name : String) (h : SInv s) :
    SInv (sink_event_custom_downstream s name).1 := by
  unfold sink_event_custom_downstream
  dsimp only
  split
  · by_cases hmode : s.mode = Mode.buffering
    · rw [hmode]
      dsimp only
      obtain ⟨hpay, hq, hc, hb⟩ := drainAll_spec
        { s with stats := { s.stats with flush_count := s.stats.flush_count + 1 } }
      unfold flushTriggerDrain
      dsimp only
      refine ⟨?_, ?_, ?_, fun _ => hq⟩
      · show (drainAll _).1.curLevel.buffers = _
        rw [hb, hq]
        have hbe : s.curLevel.buffers = (frames s.queue).length := h.buffers_eq
        simp [frames, hbe]
      · show (drainAll _).1.lastGopId ≤ (drainAll _).1.currentGopId
        rw [hc.2.1, hc.2.2.1]
        exact h.last_le
      · show framesOk (drainAll _).1.lastGopId (drainAll _).1.currentGopId
          (frames (drainAll _).1.queue)
        rw [hq]
        trivial
    · have hpt : s.mode = Mode.passThrough := by
        cases hm2 : s.mode
        · exact absurd hm2 hmode
        · rfl
      rw [hpt]
      exact h
  · exact h

theorem sink_event_segment_SInv {s : PrerecState} (seg : Segment) (h : SInv s) :
    SInv (sink_event_segment s seg) := by
  unfold sink_event_segment
  split
  next hm =>
    obtain ⟨hq, hl, hc⟩ := locked_enqueue_segment_spec s seg
    have hev : frames [({
        payload := Payload.segmentEvent seg, size := 0,
        keyframe := false, gopId := 0 } : QItem)] = [] := by
      simp [frames, Payload.isFrame]
    constructor
    · rw [hq, frames_append, hl, h.buffers_eq, hev, List.append_nil]
    · rw [hc.2.1, hc.2.2.1]
      exact h.last_le
    · rw [hq, frames_append, hev, List.append_nil, hc.2.1, hc.2.2.1]
      exact h.fok
    · intro hpt
      rw [hc.1.1, hm] at hpt
      exact absurd hpt (by simp)
  next => exact h

theorem sink_event_gap_SInv {s : PrerecState} (ts : Nat) (dur : Option Nat)
    (h : SInv s) : SInv (sink_event_gap s ts dur) := by
  unfold sink_event_gap
  split
  next hm =>
    obtain ⟨hq, hb, hc⟩ := locked_enqueue_gap_spec s ts dur
    have hev : frames [({
        payload := Payload.gapEvent ts dur, size := 0,
        keyframe := false, gopId := 0 } : QItem)] = [] := by
      simp [frames, Payload.isFrame]
    constructor
    · rw [hq, frames_append, hb, h.buffers_eq, hev, List.append_nil]
    · rw [hc.2.1, hc.2.2.1]
      exact h.last_le
    · rw [hq, frames_append, hev, List.append_nil, hc.2.1, hc.2.2.1]
      exact h.fok
    · intro hpt
      rw [hc.1.1, hm] at hpt
      exact absurd hpt (by simp)
  next => exact h

theorem sink_event_flush_start_SInv {s : PrerecState} (_h : SInv s) :
    SInv (sink_event_flush_start s) := by
  unfold sink_event_flush_start
  obtain ⟨hq, hl, hc⟩ := locked_flush_fields s true
  refine ⟨?_, Nat.le_refl 0, ?_, fun _ => hq⟩
  · show (locked_flush s true).curLevel.buffers = _
    rw [hl, hq]
    rfl
  · show framesOk 0 0 (frames (locked_flush s true).queue)
    rw [hq]
    trivial

theorem sink_event_flush_stop_SInv {s : PrerecState} (rt : Bool) (h : SInv s) :
    SInv (sink_event_flush_stop s rt) := by
  unfold sink_event_flush_stop
  split
  · exact ⟨h.buffers_eq, h.last_le, h.fok, h.pt_empty⟩
  · exact ⟨h.buffers_eq, h.last_le, h.fok, h.pt_empty⟩

theorem src_event_arm_SInv {s : PrerecState} (h : SInv s) :
    SInv (src_event_arm s) := by
  unfold src_event_arm
  split
  next hm =>
    have hq := h.pt_empty hm
    refine ⟨?_, Nat.le_refl 0, ?_, fun _ => hq⟩
    · show (0 : Nat) = (frames s.queue).length
      rw [hq]
      rfl
    · show framesOk 0 0 (frames s.queue)
      rw [hq]
      trivial
  next => exact h

theorem deactivate_flush_SInv {s : PrerecState} (full : Bool) :
    SInv s → SInv (locked_flush { s with srcresult := FlowReturn.flushing } full) := by
  intro h
  obtain ⟨hq, hl, hc⟩ := locked_flush_fields { s with srcresult := FlowReturn.flushing } full
  refine ⟨?_, ?_, ?_, fun _ => hq⟩
  · show (locked_flush _ full).curLevel.buffers = _
    rw [hl, hq]
    rfl
  · rw [hc.2.1, hc.2.2.1]
    exact h.last_le
  · show framesOk (locked_flush _ full).lastGopId (locked_flush _ full).currentGopId
      (frames (locked_flush _ full).queue)
    rw [hq]
    trivial

theorem ReachC_SInv {s : PrerecState} (h : ReachC s) : SInv s := by
  induction h with
  | init m p t => exact initState_SInv m p t
  | stepBuf f hr hcon ih => exact chain_state_SInv f ih hcon
  | stepOther i hr hne ih =>
    cases i with
    | buf f => exact absurd rfl (hne f)
    | eosEvent => exact sink_event_eos_SInv ih
    | segmentEvent seg => exact sink_event_segment_SInv seg ih
    | gapEvent ts dur => exact sink_event_gap_SInv ts dur ih
    | customDownstream name => exact custom_downstream_SInv name ih
    | flushStart => exact sink_event_flush_start_SInv ih
    | flushStop rt => exact sink_event_flush_stop_SInv rt ih
    | arm => exact src_event_arm_SInv ih
    | deactivateSrc => exact deactivate_flush_SInv false ih
    | deactivateSink => exact deactivate_flush_SInv true ih
    | activatePads => exact ⟨ih.buffers_eq, ih.last_le, ih.fok, ih.pt_empty⟩
    | setMaxTime secs => exact ⟨ih.buffers_eq, ih.last_le, ih.fok, ih.pt_empty⟩
    | setPolicy p => exact ⟨ih.buffers_eq, ih.last_le, ih.fok, ih.pt_empty⟩
    | setTrigger n => exact ⟨ih.buffers_eq, ih.last_le, ih.fok, ih.pt_empty⟩

theorem queued_gops_eq (s : PrerecState) (hb : s.curLevel.buffers ≠ 0)
    (hle : s.lastGopId ≤ s.currentGopId) :
    gst_prerec_queued_gops s = s.currentGopId - s.lastGopId + 1 := by
  unfold gst_prerec_queued_gops
  rw [if_neg hb, if_pos hle]

theorem chain_FloorInv {s : PrerecState} (f : FrameInfo) (h : FloorInv s)
    (hcon : s.curLevel.buffers = 0 → f.keyframe = true) :
    FloorInv (chain s f).2.1 := by
  unfold chain
  split
  · exact h
  split
  · exact h
  split
  · exact h
  cases hm : s.mode with
  | passThrough => exact h
  | buffering =>
    dsimp only
    obtain ⟨hS, hI1, hI2, hI3⟩ := h
    have hS1 := locked_enqueue_buffer_SInv f hS hm hcon
    obtain ⟨hQ, hCur, hLast, hBuf, hStats, hCtl⟩ := locked_enqueue_buffer_spec s f
    have hne1 : (locked_enqueue_buffer s f).curLevel.buffers ≠ 0 := by
      rw [hBuf]
      exact Nat.succ_ne_zero _
    have hF1 : FloorInv (locked_enqueue_buffer s f) := by
      refine ⟨hS1, fun hb0 => absurd hb0 hne1, fun _ => ?_, ?_⟩
      · by_cases hb : s.curLevel.buffers = 0
        · rw [hLast, if_pos (Or.inr hb), hcon hb]
          simp
        · have hqne : s.queue.length ≠ 0 := by
            intro h0
            have hq0 : s.queue = [] := List.eq_nil_of_length_eq_zero h0
            rw [hS.buffers_eq, hq0] at hb
            exact hb rfl
          rw [hLast, if_neg (fun hc => hc.elim hqne hb)]
          exact hI2 hb
      · by_cases hb : s.curLevel.buffers = 0
        · left
          rw [hLast, if_pos (Or.inr hb), hcon hb, hI1 hb]
          simp
        · have hqne : s.queue.length ≠ 0 := by
            intro h0
            have hq0 : s.queue = [] := List.eq_nil_of_length_eq_zero h0
            rw [hS.buffers_eq, hq0] at hb
            exact hb rfl
          rcases hI3 with hl1 | hqg
          · left
            rw [hLast, if_neg (fun hc => hc.elim hqne hb)]
            exact hl1
          · right
            rw [queued_gops_eq _ hne1 hS1.last_le, hLast,
              if_neg (fun hc => hc.elim hqne hb), hCur]
            rw [queued_gops_eq s hb hS.last_le] at hqg
            split
            · omega
            · omega
    have hdrop : ∀ u, FloorInv u → gst_prerec_should_prune u = true →
        FloorInv (locked_drop u) := by
      intro u hu hsp
      have hg := should_prune_gops u hsp
      obtain ⟨hub, _⟩ := queued_gops_pos_facts hg
      obtain ⟨hS2, hc2, hl2, hb2, hctl2⟩ := locked_drop_SInv hu.1 hg
      refine ⟨hS2, fun hb0 => absurd hb0 hb2, fun _ => ?_, Or.inr ?_⟩
      · rcases hl2 with he | he
        · rw [he]
          exact hu.2.2.1 hub
        · rw [he]
          omega
      · rw [queued_gops_eq _ hb2 hS2.last_le, hc2]
        rw [queued_gops_eq u hub hu.1.last_le] at hg
        rcases hl2 with he | he
        · rw [he]
          omega
        · rw [he]
          omega
    have hF2 := pruneLoopFuel_pres FloorInv hdrop
      (gst_prerec_queued_gops (locked_enqueue_buffer s f))
      (locked_enqueue_buffer s f) hF1
    exact ⟨⟨hF2.1.buffers_eq, hF2.1.last_le, hF2.1.fok, hF2.1.pt_empty⟩,
      hF2.2.1, hF2.2.2.1, hF2.2.2.2⟩

theorem runChain_FloorInv : ∀ (fs : List FrameInfo) (s : PrerecState),
    FloorInv s → contractRun s fs = true → FloorInv (runChain s fs) := by
  intro fs
  induction fs with
  | nil =>
    intro s h _
    exact h
  | cons f tl ih =>
    intro s h hc
    simp only [contractRun, Bool.and_eq_true, Bool.or_eq_true, Bool.not_eq_true',
      decide_eq_false_iff_not] at hc
    have hcon : s.curLevel.buffers = 0 → f.keyframe = true := by
      intro hb0
      exact Or.resolve_left hc.1 (not_not_intro hb0)
    exact ih _ (chain_FloorInv f h hcon) hc.2

/-- C4 (amended): on states reachable under the upstream keyframe
contract, the queue's first *frame* is a keyframe and it opens GOP
`last_gop_id`; in particular an item at the very head of the queue that is
a frame is a keyframe.  The claim's stronger reading — that the head item
is always a frame — fails when a segment or gap control event is queued
into an empty BUFFERING queue (see the counterexample). -/
theorem first_frame_keyframe (s : PrerecState) (h : ReachC s) :
    (∀ f fr, frames s.queue = f :: fr →
      f.keyframe = true ∧ f.gopId = s.lastGopId) ∧
    (∀ q rest, s.queue = q :: rest → q.payload.isFrame = true →
      q.keyframe = true) := by
  have hS := ReachC_SInv h
  constructor
  · intro f fr hf
    have hfok := hS.fok
    rw [hf] at hfok
    exact ⟨hfok.2.1, hfok.1⟩
  · intro q rest hq hqf
    have hfq : frames s.queue = q :: frames rest := by
      rw [hq, frames_cons, if_pos hqf]
    have hfok := hS.fok
    rw [hfq] at hfok
    exact hfok.2.1

theorem first_frame_keyframe_witness :
    ({ payload := Payload.frame (some 0) (some 1) 1 true, size := 1,
       keyframe := true, gopId := 1 } : QItem).keyframe = true ∧
    ({ payload := Payload.frame (some 0) (some 1) 1 true, size := 1,
       keyframe := true, gopId := 1 } : QItem).gopId =
      (stepState (initState 1000 FlushOnEos.auto none)
        (Input.buf { pts := some 0, dur := some 1, size := 1,
                     keyframe := true })).lastGopId :=
  (first_frame_keyframe _
      (ReachC.stepBuf { pts := some 0, dur := some 1, size := 1,
                        keyframe := true }
        (ReachC.init 1000 FlushOnEos.auto none) (fun _ => rfl))).1
    _ [] (by decide)

/-- C2: counterexample — with a 2 ns duration budget and the delta-led
input below, the loop is over budget after three frames, yet after the
eviction loop of the chain handler settles on the fourth frame the queued
GOP count is 0 while two GOPs were opened since the last reset: neither
at least 2 nor equal to the opened-GOP total, refuting the unqualified
2-GOP floor. -/
theorem prune_floor_counterexample :
    gst_loop_is_filled (runChain (initState 2 FlushOnEos.auto none)
      [{ pts := some 0, dur := some 1, size := 1, keyframe := false },
       { pts := some 1, dur := some 1, size := 1, keyframe := true },
       { pts := some 2, dur := some 1, size := 1, keyframe := false }]) = true ∧
    gst_prerec_queued_gops (runChain (initState 2 FlushOnEos.auto none)
      [{ pts := some 0, dur := some 1, size := 1, keyframe := false },
       { pts := some 1, dur := some 1, size := 1, keyframe := true },
       { pts := some 2, dur := some 1, size := 1, keyframe := false },
       { pts := some 3, dur := some 1, size := 1, keyframe := true }]) = 0 ∧
    (runChain (initState 2 FlushOnEos.auto none)
      [{ pts := some 0, dur := some 1, size := 1, keyframe := false },
       { pts := some 1, dur := some 1, size := 1, keyframe := true },
       { pts := some 2, dur := some 1, size := 1, keyframe := false },
       { pts := some 3, dur := some 1, size := 1, keyframe := true }]).currentGopId
      = 2 := by
  exact ⟨by decide, by decide, by decide⟩

/-- C2 (amended): over keyframe-led chain runs from the initial state
(every frame submitted while no frames are queued is a keyframe), once
the eviction loop of the chain handler settles the queued GOP count is at
least 2, or it equals the number of GOPs opened since the last reset
(`current_gop_id`) and that number is below 2.  Without the keyframe-led
qualification the property fails (see the counterexample): a delta-led
sequence drives the defensive drop path, which empties the queue. -/
theorem prune_floor_on_keyframe_led_runs (m : Nat) (p : FlushOnEos)
    (t : Option String) (fs : List FrameInfo)
    (hc : contractRun (initState m p t) fs = true) :
    2 ≤ gst_prerec_queued_gops (runChain (initState m p t) fs) ∨
    (gst_prerec_queued_gops (runChain (initState m p t) fs) =
        (runChain (initState m p t) fs).currentGopId ∧
      (runChain (initState m p t) fs).currentGopId < 2) := by
  have hF := runChain_FloorInv fs (initState m p t)
    ⟨initState_SInv m p t, fun _ => rfl, fun hb => absurd rfl hb,
      Or.inl (Nat.zero_le 1)⟩ hc
  obtain ⟨hS, hI1, hI2, hI3⟩ := hF
  rcases hI3 with hl1 | hqg
  · by_cases hb : (runChain (initState m p t) fs).curLevel.buffers = 0
    · right
      have hcur := hI1 hb
      have hq0 : gst_prerec_queued_gops (runChain (initState m p t) fs) = 0 := by
        unfold gst_prerec_queued_gops
        rw [if_pos hb]
      rw [hq0, hcur]
      exact ⟨rfl, by omega⟩
    · have hl := hI2 hb
      have hle := hS.last_le
      rw [queued_gops_eq _ hb hle]
      omega
  · exact Or.inl hqg

theorem prune_floor_witness :
    contractRun (initState 2 FlushOnEos.auto none)
      [{ pts := some 0, dur := some 1, size := 1, keyframe := true },
       { pts := some 1, dur := some 1, size := 1, keyframe := true },
       { pts := some 2, dur := some 1, size := 1, keyframe := true }] = true ∧
    (2 ≤ gst_prerec_queued_gops (runChain (initState 2 FlushOnEos.auto none)
      [{ pts := some 0, dur := some 1, size := 1, keyframe := true },
       { pts := some 1, dur := some 1, size := 1, keyframe := true },
       { pts := some 2, dur := some 1, size := 1, keyframe := true }]) ∨
     (gst_prerec_queued_gops (runChain (initState 2 FlushOnEos.auto none)
      [{ pts := some 0, dur := some 1, size := 1, keyframe := true },
       { pts := some 1, dur := some 1, size := 1, keyframe := true },
       { pts := some 2, dur := some 1, size := 1, keyframe := true }]) =
        (runChain (initState 2 FlushOnEos.auto none)
      [{ pts := some 0, dur := some 1, size := 1, keyframe := true },
       { pts := some 1, dur := some 1, size := 1, keyframe := true },
       { pts := some 2, dur := some 1, size := 1, keyframe := true }]).currentGopId ∧
      (runChain (initState 2 FlushOnEos.auto none)
      [{ pts := some 0, dur := some 1, size := 1, keyframe := true },
       { pts := some 1, dur := some 1, size := 1, keyframe := true },
       { pts := some 2, dur := some 1, size := 1, keyframe := true }]).currentGopId
        < 2)) :=
  ⟨by decide, prune_floor_on_keyframe_led_runs 2 FlushOnEos.auto none
    [{ pts := some 0, dur := some 1, size := 1, keyframe := true },
     { pts := some 1, dur := some 1, size := 1, keyframe := true },
     { pts := some 2, dur := some 1, size := 1, keyframe := true }] (by decide)⟩

end Prerec
